import Mathlib

/-!
# CANOpenRobotController: RobotousRFT frame codec, ExoRobot, X2DemoMachine, State

A shallow embedding of `src/hardware/IO/RobotousRFT.cpp`,
`src/hardware/platforms/DummyExo/ExoRobot.cpp`, `X2DemoMachine::end` of
`src/apps/X2DemoMachine/X2DemoMachine.cpp` and `State::allowTransitionTo` of
`src/core/stateMachine/State.h`; `RobotM3::safetyCheck`, which
`src/hardware/platforms/M3/RobotM3.h` only declares, is modelled from the specification.

Conventions of the embedding.

* C++ `double` is an arbitrary scalar type `R` carrying just the operations the
  source applies to it (conversion from an integer, `/`, `-`, the constant zero).
  Every statement therefore holds for any reading of the arithmetic; concrete
  evaluations are made at `ℚ`.
* `Eigen::VectorXd` is a `List R`. Coefficient access `v[i]` outside the current
  size has no defined result, so indexed reads and writes return an `Option`.
* Fixed-width integers are `Nat` / `Int` with explicit reductions modulo `2^16`.
* Logging (`spdlog`, `std::cout`, `DEBUG_OUT`) is not modelled.
-/

/-! ## Machine integers -/

/-- Storing an `int` into an `UNSIGNED16` variable keeps it modulo `2^16`. -/
def toUNSIGNED16 (n : Nat) : Nat := n % 65536

/-- The conversion `static_cast<INTEGER16>(u)`: the value congruent to `u` modulo `2^16` that lies
in `[-32768, 32767]`. -/
def toINTEGER16 (u : Nat) : Int := ((u : Int) + 32768) % 65536 - 32768

/-! ## Dynamic vectors -/

/-- The vector `Eigen::VectorXd::Zero(n)`. -/
def VectorXd.Zero {R : Type} [Zero R] (n : Nat) : List R := List.replicate n 0

/-- Read of the coefficient `v[i]`; `none` when `i` is not below the size of `v`. -/
def VectorXd.coeff {R : Type} (v : List R) (i : Nat) : Option R := v[i]?

/-- The assignment `v[i] = x`; `none` when `i` is not below the size of `v`. -/
def VectorXd.assign {R : Type} (v : List R) (i : Nat) (x : R) : Option (List R) :=
  if i < v.length then some (v.set i x) else none

/-! ## RobotousRFT -/

/-- The data members of a `RobotousRFT` object that its member functions read or write.
`rawData i` is the byte `rawData[i]` of the receive buffer (an `UNSIGNED8`, so a value below 256),
`cmdData` the one-byte command slot. -/
structure RobotousRFT (R : Type) where
  commandID : Int
  rawData : Nat → Nat
  cmdData : Nat
  streaming : Bool
  forces : List R
  torques : List R
  forceOffsets : List R
  torqueOffsets : List R

namespace RobotousRFT

variable {R : Type}

/-- The member function `RobotousRFT::updateInput()`. The six statements `forces[k] = ...`,
`torques[k] = ...` are executed in source order; the result is `none` when one of the coefficient
accesses is out of range. -/
def updateInput [IntCast R] [Sub R] [Div R] (s : RobotousRFT R) : Option (RobotousRFT R) :=
  if s.rawData 0 = 0x0B then
    let Fx := toUNSIGNED16 (s.rawData 1 * 256 + s.rawData 2)
    let Fy := toUNSIGNED16 (s.rawData 3 * 256 + s.rawData 4)
    let Fz := toUNSIGNED16 (s.rawData 5 * 256 + s.rawData 6)
    let Tx := toUNSIGNED16 (s.rawData 7 * 256 + s.rawData 8)
    let Ty := toUNSIGNED16 (s.rawData 9 * 256 + s.rawData 10)
    let Tz := toUNSIGNED16 (s.rawData 11 * 256 + s.rawData 12)
    (VectorXd.coeff s.forceOffsets 0).bind fun o0 =>
    (VectorXd.assign s.forces 0 (((toINTEGER16 Fx : Int) : R) / ((50 : Int) : R) - o0)).bind fun f0 =>
    (VectorXd.coeff s.forceOffsets 1).bind fun o1 =>
    (VectorXd.assign f0 1 (((toINTEGER16 Fy : Int) : R) / ((50 : Int) : R) - o1)).bind fun f1 =>
    (VectorXd.coeff s.forceOffsets 2).bind fun o2 =>
    (VectorXd.assign f1 2 (((toINTEGER16 Fz : Int) : R) / ((50 : Int) : R) - o2)).bind fun f2 =>
    (VectorXd.coeff s.torqueOffsets 0).bind fun q0 =>
    (VectorXd.assign s.torques 0 (((toINTEGER16 Tx : Int) : R) / ((2000 : Int) : R) - q0)).bind fun t0 =>
    (VectorXd.coeff s.torqueOffsets 1).bind fun q1 =>
    (VectorXd.assign t0 1 (((toINTEGER16 Ty : Int) : R) / ((2000 : Int) : R) - q1)).bind fun t1 =>
    (VectorXd.coeff s.torqueOffsets 2).bind fun q2 =>
    (VectorXd.assign t1 2 (((toINTEGER16 Tz : Int) : R) / ((2000 : Int) : R) - q2)).bind fun t2 =>
    some { s with forces := f2, torques := t2 }
  else
    some s

/-- The member function `RobotousRFT::setOffsets(forceOffset, torqueOffset)`. -/
def setOffsets (s : RobotousRFT R) (forceOffset torqueOffset : List R) : RobotousRFT R :=
  { s with forceOffsets := forceOffset, torqueOffsets := torqueOffset }

/-- The member function `RobotousRFT::startStream()`: the returned flag and the object afterwards. -/
def startStream (s : RobotousRFT R) : Bool × RobotousRFT R :=
  if !s.streaming then
    (true, { s with cmdData := 0x0B, streaming := true })
  else
    (false, s)

/-- The member function `RobotousRFT::stopStream()`: the returned flag and the object afterwards. -/
def stopStream [Zero R] (s : RobotousRFT R) : Bool × RobotousRFT R :=
  if s.streaming then
    (true, { s with cmdData := 0x0C, streaming := false,
                    forces := VectorXd.Zero 3, torques := VectorXd.Zero 3 })
  else
    (false, s)

/-- The member function `RobotousRFT::getStreaming()`. -/
def getStreaming (s : RobotousRFT R) : Bool := s.streaming

/-- The reinterpretation of an unsigned 16-bit field as the specification words it: `s16(u) = u`
if `u < 32768` and `u - 65536` otherwise. -/
def s16 (u : Nat) : Int :=
  if u < 32768 then (u : Int) else (u : Int) - 65536

/-- A receive buffer holding the given bytes from index 0 on and zero after them. -/
def bufferOf (bytes : List Nat) : Nat → Nat := fun i => bytes.getD i 0

/-- A sensor over `ℚ` whose buffer holds a streaming frame with `Fx = 0x09C4 = 2500`,
`Fy = 0xFF9C`, `Fz = 0x8000`, `Tx = 0x07D0 = 2000`, `Ty = 0xFFFF`, `Tz = 0x7FFF`. -/
def sampleStreaming : RobotousRFT ℚ where
  commandID := 0xF8
  rawData := bufferOf [0x0B, 0x09, 0xC4, 0xFF, 0x9C, 0x80, 0x00, 0x07, 0xD0, 0xFF, 0xFF, 0x7F, 0xFF]
  cmdData := 0x0B
  streaming := true
  forces := [0, 0, 0]
  torques := [0, 0, 0]
  forceOffsets := [1, 2, 3]
  torqueOffsets := [1 / 2, 0, -1]

/-- A sensor over `ℚ` that is not streaming, holds earlier readings and whose buffer starts with
the opcode `0x0C`. -/
def sampleIdle : RobotousRFT ℚ where
  commandID := 0xF8
  rawData := bufferOf [0x0C, 0x09, 0xC4, 0xFF, 0x9C, 0x80, 0x00, 0x07, 0xD0, 0xFF, 0xFF, 0x7F, 0xFF]
  cmdData := 0
  streaming := false
  forces := [49, -4, 7]
  torques := [1 / 2, 1, 0]
  forceOffsets := [1, 2, 3]
  torqueOffsets := [1 / 2, 0, -1]

end RobotousRFT

/-! ## ExoRobot -/

/-- Modelled from the spec: the enumeration `setMovementReturnCode_t`, declared in a header that is
not among the sources; its values are the four codes the sources and the specification name. -/
inductive setMovementReturnCode_t
  | SUCCESS
  | OUTSIDE_LIMITS
  | INCORRECT_MODE
  | UNKNOWN_ERROR
  deriving DecidableEq, Repr

/-- Modelled from the spec: the enumeration `ControlMode`, declared in a header that is not among
the sources; the specification lists the modes NONE, POSITION, VELOCITY, TORQUE and the sources
name the last three `POSITION_CONTROL`, `VELOCITY_CONTROL`, `TORQUE_CONTROL`. -/
inductive ControlMode
  | NONE
  | POSITION_CONTROL
  | VELOCITY_CONTROL
  | TORQUE_CONTROL
  deriving DecidableEq, Repr

/-- The operations `ExoRobot` calls on things it does not define: the member functions of the
joint classes (`ActuatedJoint`, `DummyActJoint`) and `usleep`. `Ptr` is the type of the joint
pointers stored in `joints`, `W` the state of everything outside the robot object (joints, drives,
bus), `P` the type of a motor profile. Each operation takes the state before the call and gives
its return value, if it has one, and the state after the call. -/
structure Hardware (Ptr W R P : Type) where
  setModeProfile : Ptr → ControlMode → P → W → ControlMode × W
  setMode : Ptr → ControlMode → W → ControlMode × W
  readyToSwitchOn : Ptr → W → W
  enable : Ptr → W → W
  usleep : Nat → W → W
  setPosition : Ptr → R → W → setMovementReturnCode_t × W
  setVelocity : Ptr → R → W → setMovementReturnCode_t × W
  setTorque : Ptr → R → W → setMovementReturnCode_t × W

namespace ExoRobot

open setMovementReturnCode_t ControlMode

variable {Ptr W R P : Type}

/-- Record of one call `p->setPosition(x)` (or `setVelocity`, `setTorque`) made by a set loop:
the joint, the value passed and the code the joint returned. The list of these records is kept
beside the program state to state which calls were made; it is not a data member. -/
structure SetCall (Ptr R : Type) where
  joint : Ptr
  value : R
  code : setMovementReturnCode_t

/-- What a call of `setPosition` / `setVelocity` / `setTorque` leaves: the outside state, the
per-joint calls made, in order, and the returned code; `returned` is `none` when the loop read a
coefficient of the argument vector that does not exist, so that no code is returned. -/
structure SetOutcome (Ptr W R : Type) where
  world : W
  calls : List (SetCall Ptr R)
  returned : Option setMovementReturnCode_t

/-- The `if (setPosCode == INCORRECT_MODE) ... else if (setPosCode != SUCCESS) ...` statement of
the set loops: the value of `returnValue` after it. -/
def nextReturnValue (returnValue setPosCode : setMovementReturnCode_t) : setMovementReturnCode_t :=
  if setPosCode = INCORRECT_MODE then INCORRECT_MODE
  else if setPosCode ≠ SUCCESS then UNKNOWN_ERROR
  else returnValue

/-- The loop `for (auto p : joints) { ...; i++; }` of `setPosition`, `setVelocity` and
`setTorque`, which differ only in the joint member function `jointSet` they call. The arguments
after the remaining joints are the loop variables `i` and `returnValue`, the outside state and the
calls made so far. The coefficient `v[i]` is read before the joint is called. The `std::cout`
lines of the two failure branches, which print `p->getId()`, are left out. -/
def setLoop (jointSet : Ptr → R → W → setMovementReturnCode_t × W) (v : List R) :
    List Ptr → Nat → setMovementReturnCode_t → W → List (SetCall Ptr R) → SetOutcome Ptr W R
  | [], _, returnValue, w, log => ⟨w, log, some returnValue⟩
  | p :: rest, i, returnValue, w, log =>
    match VectorXd.coeff v i with
    | none => ⟨w, log, none⟩
    | some x =>
      let r := jointSet p x w
      setLoop jointSet v rest (i + 1) (nextReturnValue returnValue r.1) r.2 (log ++ [⟨p, x, r.1⟩])

/-- The calls recorded are the calls made on the hardware: the code in each record is the code
`jointSet` returned for the joint and the value of that record, in the outside state left by the
calls recorded before it. -/
def CodesFromHardware (jointSet : Ptr → R → W → setMovementReturnCode_t × W) (w : W)
    (calls : List (SetCall Ptr R)) : Prop :=
  ∀ k c, calls[k]? = some c →
    c.code = (jointSet c.joint c.value
      ((calls.take k).foldl (fun u d => (jointSet d.joint d.value u).2) w)).1

/-- The member function `ExoRobot::setPosition(positions)`. -/
def setPosition (hw : Hardware Ptr W R P) (joints : List Ptr) (positions : List R) (w : W) :
    SetOutcome Ptr W R :=
  setLoop hw.setPosition positions joints 0 SUCCESS w []

/-- The member function `ExoRobot::setVelocity(velocities)`. -/
def setVelocity (hw : Hardware Ptr W R P) (joints : List Ptr) (velocities : List R) (w : W) :
    SetOutcome Ptr W R :=
  setLoop hw.setVelocity velocities joints 0 SUCCESS w []

/-- The member function `ExoRobot::setTorque(torques)`. -/
def setTorque (hw : Hardware Ptr W R P) (joints : List Ptr) (torques : List R) (w : W) :
    SetOutcome Ptr W R :=
  setLoop hw.setTorque torques joints 0 SUCCESS w []

/-- One command issued by an `init...Control` function; `setMode` records the requested mode and
the mode the joint returned. Kept beside the program state like `SetCall`. -/
inductive InitCommand (Ptr : Type)
  | setMode (p : Ptr) (requested returned : ControlMode)
  | readyToSwitchOn (p : Ptr)
  | usleep (us : Nat)
  | enable (p : Ptr)

/-- What a call of `initPositionControl` / `initVelocityControl` / `initTorqueControl` leaves:
the outside state, the commands issued, in order, and the returned flag. -/
structure InitOutcome (Ptr W : Type) where
  world : W
  commands : List (InitCommand Ptr)
  returned : Bool

/-- The first loop of the `init...Control` functions: `setMode` (the call `jointSetMode`, which
requests `mode`), the test of its result, then `readyToSwitchOn`. The arguments after the remaining
joints are `returnValue`, the outside state and the commands issued so far. -/
def modeLoop (jointSetMode : Ptr → W → ControlMode × W) (readyToSwitchOn : Ptr → W → W)
    (mode : ControlMode) :
    List Ptr → Bool → W → List (InitCommand Ptr) → Bool × W × List (InitCommand Ptr)
  | [], returnValue, w, log => (returnValue, w, log)
  | p :: rest, returnValue, w, log =>
    let r := jointSetMode p w
    modeLoop jointSetMode readyToSwitchOn mode rest
      (if r.1 ≠ mode then false else returnValue)
      (readyToSwitchOn p r.2)
      (log ++ [InitCommand.setMode p mode r.1, InitCommand.readyToSwitchOn p])

/-- The second loop of the `init...Control` functions: `enable` on every joint. -/
def enableLoop (enable : Ptr → W → W) :
    List Ptr → W → List (InitCommand Ptr) → W × List (InitCommand Ptr)
  | [], w, log => (w, log)
  | p :: rest, w, log => enableLoop enable rest (enable p w) (log ++ [InitCommand.enable p])

/-- The common body of the three `init...Control` functions: mode loop, `usleep(2000)`, enable
loop, `return returnValue`. -/
def initControl (hw : Hardware Ptr W R P) (jointSetMode : Ptr → W → ControlMode × W)
    (mode : ControlMode) (joints : List Ptr) (w : W) : InitOutcome Ptr W :=
  let m := modeLoop jointSetMode hw.readyToSwitchOn mode joints true w []
  let e := enableLoop hw.enable joints (hw.usleep 2000 m.2.1) (m.2.2 ++ [InitCommand.usleep 2000])
  ⟨e.1, e.2, m.1⟩

/-- The member function `ExoRobot::initPositionControl()`; it passes the data member
`posControlMotorProfile` to `setMode`. -/
def initPositionControl (hw : Hardware Ptr W R P) (posControlMotorProfile : P)
    (joints : List Ptr) (w : W) : InitOutcome Ptr W :=
  initControl hw (fun p => hw.setModeProfile p POSITION_CONTROL posControlMotorProfile)
    POSITION_CONTROL joints w

/-- The member function `ExoRobot::initVelocityControl()`. -/
def initVelocityControl (hw : Hardware Ptr W R P) (joints : List Ptr) (w : W) :
    InitOutcome Ptr W :=
  initControl hw (fun p => hw.setMode p VELOCITY_CONTROL) VELOCITY_CONTROL joints w

/-- The member function `ExoRobot::initTorqueControl()`. -/
def initTorqueControl (hw : Hardware Ptr W R P) (joints : List Ptr) (w : W) :
    InitOutcome Ptr W :=
  initControl hw (fun p => hw.setMode p TORQUE_CONTROL) TORQUE_CONTROL joints w

/-- A stand-in joint for concrete evaluations: the code its set calls return and whether its mode
switches succeed. -/
structure StubJoint where
  code : setMovementReturnCode_t
  switches : Bool

/-- Stand-in hardware over `StubJoint`: a set call returns the joint's code, `setMode` returns the
requested mode if the joint switches and `NONE` otherwise; the outside state counts the calls
received. -/
def stubHardware : Hardware StubJoint Nat ℚ Unit where
  setModeProfile := fun p m _ w => (if p.switches then m else NONE, w + 1)
  setMode := fun p m w => (if p.switches then m else NONE, w + 1)
  readyToSwitchOn := fun _ w => w + 1
  enable := fun _ w => w + 1
  usleep := fun _ w => w
  setPosition := fun p _ w => (p.code, w + 1)
  setVelocity := fun p _ w => (p.code, w + 1)
  setTorque := fun p _ w => (p.code, w + 1)

/-- Three stand-in joints: the middle one answers `INCORRECT_MODE` and fails to switch mode. -/
def sampleJoints : List StubJoint :=
  [⟨SUCCESS, true⟩, ⟨INCORRECT_MODE, false⟩, ⟨SUCCESS, true⟩]

/-- The reading of a per-joint code by the set loops as the specification words it: a code other
than `SUCCESS` and `INCORRECT_MODE` counts as `UNKNOWN_ERROR`. -/
def countedAs : setMovementReturnCode_t → setMovementReturnCode_t
  | SUCCESS => SUCCESS
  | INCORRECT_MODE => INCORRECT_MODE
  | _ => UNKNOWN_ERROR

/-- The severity the set loops respect: `SUCCESS` below every failure code, the failure codes
level with one another. -/
def failureRank : setMovementReturnCode_t → Nat
  | SUCCESS => 0
  | _ => 1

/-- The `setMode` attempts among a list of commands: joint, requested mode, returned mode. -/
def modeAttempts : List (InitCommand Ptr) → List (Ptr × ControlMode × ControlMode)
  | [] => []
  | InitCommand.setMode p requested returned :: rest => (p, requested, returned) :: modeAttempts rest
  | _ :: rest => modeAttempts rest

end ExoRobot

/-! ## ExoRobot: network bring-up, readback, construction and release -/

namespace ExoRobot

open setMovementReturnCode_t ControlMode

variable {Ptr W R : Type}

/-- The joints a list of commands enables, in order. -/
def enabledJoints : List (InitCommand Ptr) → List Ptr
  | [] => []
  | InitCommand.enable p :: rest => p :: enabledJoints rest
  | _ :: rest => enabledJoints rest

/-- Stand-in hardware whose outside state is the list of the calls it has received, in order,
each `setMode` with the mode it returned: a `setMode` returns the requested mode if the joint
switches and `NONE` otherwise. -/
def loggingHardware : Hardware StubJoint (List (InitCommand StubJoint)) ℚ Unit where
  setModeProfile := fun p m _ w =>
    (if p.switches then m else NONE, w ++ [InitCommand.setMode p m (if p.switches then m else NONE)])
  setMode := fun p m w =>
    (if p.switches then m else NONE, w ++ [InitCommand.setMode p m (if p.switches then m else NONE)])
  readyToSwitchOn := fun p w => w ++ [InitCommand.readyToSwitchOn p]
  enable := fun p w => w ++ [InitCommand.enable p]
  usleep := fun n w => w ++ [InitCommand.usleep n]
  setPosition := fun p _ w => (p.code, w)
  setVelocity := fun p _ w => (p.code, w)
  setTorque := fun p _ w => (p.code, w)

/-- What a call of `initialiseNetwork` leaves: the outside state, the `initNetwork` calls made, in
order, each with the status it returned, and the returned flag. The list of calls is kept beside
the program state like `SetCall`. -/
structure NetworkOutcome (Ptr W : Type) where
  world : W
  calls : List (Ptr × Bool)
  returned : Bool

/-- The loop of `ExoRobot::initialiseNetwork()` with its `return false` inside and the
`return true` after it; `jointInitNetwork` is the joint member function `initNetwork`. -/
def initialiseNetworkLoop (jointInitNetwork : Ptr → W → Bool × W) :
    List Ptr → W → List (Ptr × Bool) → NetworkOutcome Ptr W
  | [], w, log => ⟨w, log, true⟩
  | joint :: rest, w, log =>
    let r := jointInitNetwork joint w
    if !r.1 then ⟨r.2, log ++ [(joint, r.1)], false⟩
    else initialiseNetworkLoop jointInitNetwork rest r.2 (log ++ [(joint, r.1)])

/-- The `initNetwork` calls recorded are the calls made on the hardware: the status in each record
is the status `jointInitNetwork` returned for that joint, in the outside state left by the calls
recorded before it. -/
def StatusesFromHardware (jointInitNetwork : Ptr → W → Bool × W) (w : W)
    (calls : List (Ptr × Bool)) : Prop :=
  ∀ k c, calls[k]? = some c →
    c.2 = (jointInitNetwork c.1
      ((calls.take k).foldl (fun u d => (jointInitNetwork d.1 u).2) w)).1

/-- The member function `ExoRobot::initialiseNetwork()`. -/
def initialiseNetwork (jointInitNetwork : Ptr → W → Bool × W) (joints : List Ptr) (w : W) :
    NetworkOutcome Ptr W :=
  initialiseNetworkLoop jointInitNetwork joints w []

/-- The readback member functions of the joint class (`DummyActJoint`), which `ExoRobot` calls and
does not define: each takes the outside state and gives the value read and the outside state after
the call. -/
structure JointReadback (Ptr W R : Type) where
  getPosition : Ptr → W → R × W
  getVelocity : Ptr → W → R × W
  getTorque : Ptr → W → R × W

/-- The loop `for (auto p : joints) { actual[i] = p->get...(); i++; }` of `getPosition`,
`getVelocity` and `getTorque`; `actual` is the local vector being filled. -/
def getLoop (jointGet : Ptr → W → R × W) : List Ptr → Nat → List R → W → Option (List R × W)
  | [], _, actual, w => some (actual, w)
  | p :: rest, i, actual, w =>
    let r := jointGet p w
    (VectorXd.assign actual i r.1).bind fun actual' => getLoop jointGet rest (i + 1) actual' r.2

/-- The member function `ExoRobot::getPosition()`. The local vector is constructed with
`joints.size()` coefficients whose initial values are not specified: `uninitialised k` stands for
the initial value of coefficient `k`. -/
def getPosition (jr : JointReadback Ptr W R) (uninitialised : Nat → R) (joints : List Ptr)
    (w : W) : Option (List R × W) :=
  getLoop jr.getPosition joints 0 ((List.range joints.length).map uninitialised) w

/-- The member function `ExoRobot::getVelocity()`. -/
def getVelocity (jr : JointReadback Ptr W R) (uninitialised : Nat → R) (joints : List Ptr)
    (w : W) : Option (List R × W) :=
  getLoop jr.getVelocity joints 0 ((List.range joints.length).map uninitialised) w

/-- The member function `ExoRobot::getTorque()`. -/
def getTorque (jr : JointReadback Ptr W R) (uninitialised : Nat → R) (joints : List Ptr)
    (w : W) : Option (List R × W) :=
  getLoop jr.getTorque joints 0 ((List.range joints.length).map uninitialised) w

/-- Stand-in readback for concrete evaluations: the outside state is the list of joint positions,
a joint is its index, velocity and torque read zero and one; nothing is written. -/
def stubReadback : JointReadback Nat (List ℚ) ℚ where
  getPosition := fun p w => (w.getD p 0, w)
  getVelocity := fun _ w => (0, w)
  getTorque := fun _ w => (1, w)

/-- A `CopleyDrive` object as constructed by `new CopleyDrive(NodeID)`. -/
structure CopleyDrive where
  NodeID : Int
  deriving DecidableEq, Repr

/-- A `DummyActJoint` object as constructed by `new DummyActJoint(id, qMin, qMax, drive)`;
`drive` is the address of the drive object passed. -/
structure DummyActJoint (R : Type) where
  id : Int
  qMin : R
  qMax : R
  drive : Nat
  deriving DecidableEq, Repr

/-- The collections an `ExoRobot` owns. `driveObjects` holds every `CopleyDrive` object created so
far and the address of an object is its position in that list, so that `new` gives an address no
other object has. `copleyDrives` is the vector of drive addresses, `joints` the vector of joints
(each entry stands for the pointer to a joint object of its own, given by that object),
`inputs` the vector of input addresses. -/
structure Members (R : Type) where
  driveObjects : List CopleyDrive
  copleyDrives : List Nat
  joints : List (DummyActJoint R)
  inputs : List Nat

/-- The loop `for (int id = 0; id < NUM_JOINTS; id++)` of `initialiseJoints`, with `remaining`
iterations left. `jointMinMap` and `jointMaxMap` give the values of the tables of the same names,
declared in a header that is not among the sources. `copleyDrives[id]` is read after the
`push_back`; the result is `none` if that index is not below the size. -/
def initialiseJointsLoop (jointMinMap jointMaxMap : Int → R) :
    (remaining : Nat) → (id : Nat) → Members R → Option (Members R)
  | 0, _, m => some m
  | remaining + 1, id, m =>
    let m1 : Members R := { m with
      driveObjects := m.driveObjects ++ [⟨(id : Int) + 1⟩],
      copleyDrives := m.copleyDrives ++ [m.driveObjects.length] }
    match m1.copleyDrives[id]? with
    | none => none
    | some d =>
      initialiseJointsLoop jointMinMap jointMaxMap remaining (id + 1)
        { m1 with joints := m1.joints ++ [⟨(id : Int), jointMinMap id, jointMaxMap id, d⟩] }

/-- The member function `ExoRobot::initialiseJoints()`; `NUM_JOINTS` is the constant of that name,
defined in a header that is not among the sources. -/
def initialiseJoints (NUM_JOINTS : Nat) (jointMinMap jointMaxMap : Int → R) (m : Members R) :
    Option (Bool × Members R) :=
  (initialiseJointsLoop jointMinMap jointMaxMap NUM_JOINTS 0 m).map fun m' => (true, m')

/-- One `delete p` of `freeMemory`: what is released. -/
inductive Release (R : Type)
  | driveNode (p : Nat)
  | joint (j : DummyActJoint R)
  | input (p : Nat)
  deriving DecidableEq, Repr

/-- A loop `for (auto p : collection) { delete p; }`: the releases so far followed by one release
per entry, in order. -/
def deleteAll {α β : Type} (release : α → β) : List α → List β → List β
  | [], log => log
  | p :: rest, log => deleteAll release rest (log ++ [release p])

/-- The member function `ExoRobot::freeMemory()`: the releases it makes, in order. -/
def freeMemory (m : Members R) : List (Release R) :=
  deleteAll Release.input m.inputs
    (deleteAll Release.joint m.joints
      (deleteAll Release.driveNode m.copleyDrives []))

/-- The destructor `ExoRobot::~ExoRobot()`, which calls `freeMemory()`. -/
def destructor (m : Members R) : List (Release R) := freeMemory m

/-- The release order the specification words: inputs first, then joints, then drive nodes. -/
def releaseOrderInputsJointsDrives (m : Members R) : List (Release R) :=
  m.inputs.map Release.input ++ m.joints.map Release.joint ++ m.copleyDrives.map Release.driveNode

/-- A robot holding nothing yet; two drive objects made by someone else are already in memory. -/
def emptyMembers : Members ℚ where
  driveObjects := [⟨40⟩, ⟨41⟩]
  copleyDrives := []
  joints := []
  inputs := []

/-- A robot with one drive node, the joint bound to it, and one input. -/
def smallMembers : Members ℚ where
  driveObjects := [⟨1⟩]
  copleyDrives := [0]
  joints := [⟨0, -1, 1, 0⟩]
  inputs := [7]

end ExoRobot

/-! ## X2DemoMachine -/

namespace X2DemoMachine

/-- One statement of the body of `X2DemoMachine::end()`. -/
inductive EndStep
  | endLog
  | currentStateExit
  | robotDisable
  | deleteX2DemoMachineRos
  | deleteRobot
  deriving DecidableEq, Repr

/-- The operations `X2DemoMachine::end()` calls on other objects: `logHelper.endLog()`,
`currentState->exit()`, `robot->disable()` and the two `delete`s, each as its effect on the state
`W` of everything outside the machine object. -/
structure Collaborators (W : Type) where
  endLog : W → W
  currentStateExit : W → W
  robotDisable : W → W
  deleteX2DemoMachineRos : W → W
  deleteRobot : W → W

/-- The member function `X2DemoMachine::end()` (`end` is a reserved word here): the outside state
afterwards and the steps taken, in order; `initialised` is the data member of that name. -/
def end_ {W : Type} (c : Collaborators W) (initialised : Bool) (w : W) : W × List EndStep :=
  if initialised then
    let w1 := c.endLog w
    let w2 := c.currentStateExit w1
    let w3 := c.robotDisable w2
    let w4 := c.deleteX2DemoMachineRos w3
    let w5 := c.deleteRobot w4
    (w5, [EndStep.endLog, EndStep.currentStateExit, EndStep.robotDisable,
      EndStep.deleteX2DemoMachineRos, EndStep.deleteRobot])
  else
    (w, [])

/-- Stand-in collaborators: the outside state is the list of the operations received, latest
last. -/
def stubCollaborators : Collaborators (List String) where
  endLog := fun w => w ++ ["endLog"]
  currentStateExit := fun w => w ++ ["exit"]
  robotDisable := fun w => w ++ ["disable"]
  deleteX2DemoMachineRos := fun w => w ++ ["delete ros"]
  deleteRobot := fun w => w ++ ["delete robot"]

end X2DemoMachine

/-! ## RobotM3 -/

namespace RobotM3

open setMovementReturnCode_t

/-- Modelled from the spec: the raw readings of one joint that the safety check compares, with the
joint's limits; the joint class `JointM3` is not among the sources. -/
structure JointReading (R : Type) where
  velocity : R
  maxVelocity : R
  torque : R
  maxTorque : R

/-- Modelled from the spec: what `RobotM3::safetyCheck()` reads. `calibrated`, `maxEndEffVel` and
`maxEndEffForce` are the data members `RobotM3.h` declares; `endEffVelocity` and `endEffForce` are
the derived end-effector velocity and force the specification speaks of, as magnitudes; `joints`
holds the per-joint readings. -/
structure Readings (R : Type) where
  calibrated : Bool
  maxEndEffVel : R
  maxEndEffForce : R
  endEffVelocity : R
  endEffForce : R
  joints : List (JointReading R)

/-- Modelled from the spec: `RobotM3::safetyCheck()`, which `RobotM3.h` declares and whose body is
in a file that is not among the sources. "If the robot has a valid calibration, compare derived
end-effector velocity and force against maximum thresholds; otherwise compare raw per-joint
velocity/torque against per-joint limits; returns OUTSIDE_LIMITS if any quantity exceeds its
threshold, else SUCCESS." The second component lists the commands issued to joints (by index):
the check is "advisory-returning, not auto-braking", so there are none. -/
def safetyCheck {R : Type} [LT R] [DecidableRel ((· < ·) : R → R → Prop)] (r : Readings R) :
    setMovementReturnCode_t × List Nat :=
  if r.calibrated then
    if r.maxEndEffVel < r.endEffVelocity ∨ r.maxEndEffForce < r.endEffForce then
      (OUTSIDE_LIMITS, [])
    else (SUCCESS, [])
  else
    if r.joints.any (fun j => decide (j.maxVelocity < j.velocity ∨ j.maxTorque < j.torque)) then
      (OUTSIDE_LIMITS, [])
    else (SUCCESS, [])

/-- Readings of an uncalibrated robot whose third joint's torque is above its limit; the
end-effector quantities are far above their limits and are not looked at. -/
def sampleUncalibrated : Readings ℚ where
  calibrated := false
  maxEndEffVel := 1
  maxEndEffForce := 1
  endEffVelocity := 100
  endEffForce := 100
  joints := [⟨0, 2, 0, 5⟩, ⟨1, 2, -3, 5⟩, ⟨0, 2, 6, 5⟩]

/-- Readings of an uncalibrated robot with every joint within its limits. -/
def sampleWithinLimits : Readings ℚ where
  calibrated := false
  maxEndEffVel := 1
  maxEndEffForce := 1
  endEffVelocity := 100
  endEffForce := 100
  joints := [⟨0, 2, 0, 5⟩, ⟨1, 2, -3, 5⟩, ⟨2, 2, 5, 5⟩]

end RobotM3

/-! ## RobotousRFT: sequences of calls -/

namespace RobotousRFT

variable {R : Type}

/-- One call on a sensor object. -/
inductive Call (R : Type)
  | startStream
  | stopStream
  | updateInput
  | setOffsets (forceOffset torqueOffset : List R)

/-- The effect of one call: the flag returned (`none` for the two `void` functions) and the object
afterwards; `none` when `updateInput` has no result. -/
def step [IntCast R] [Sub R] [Div R] [Zero R] (c : Call R) (s : RobotousRFT R) :
    Option (Option Bool × RobotousRFT R) :=
  match c with
  | Call.startStream => some (some (startStream s).1, (startStream s).2)
  | Call.stopStream => some (some (stopStream s).1, (stopStream s).2)
  | Call.updateInput => (updateInput s).map fun s' => (none, s')
  | Call.setOffsets f t => some (none, setOffsets s f t)

/-- The calls of a list made one after the other: each call with what it returned, and the object
at the end; `none` when one of the calls has no result. -/
def run [IntCast R] [Sub R] [Div R] [Zero R] :
    List (Call R) → RobotousRFT R → Option (List (Call R × Option Bool) × RobotousRFT R)
  | [], s => some ([], s)
  | c :: rest, s =>
    (step c s).bind fun r =>
      (run rest r.2).map fun t => ((c, r.1) :: t.1, t.2)

/-- Seven calls on a sensor over `ℚ`. -/
def sampleCalls : List (Call ℚ) :=
  [Call.updateInput, Call.startStream, Call.startStream, Call.setOffsets [0, 0, 0] [1, 1, 1],
    Call.stopStream, Call.stopStream, Call.startStream]

/-- The calls of a log that returned true, in order: `true` for a `startStream`, `false` for a
`stopStream`. -/
def successes : List (Call R × Option Bool) → List Bool
  | [] => []
  | (Call.startStream, some true) :: rest => true :: successes rest
  | (Call.stopStream, some true) :: rest => false :: successes rest
  | _ :: rest => successes rest

end RobotousRFT

/-! ## State -/

namespace State

variable {S F : Type}

end State

/-! # Theorems -/

/-! ## Auxiliary facts -/

theorem toINTEGER16_toUNSIGNED16 (hi lo : Nat) (hhi : hi < 256) (hlo : lo < 256) :
    toINTEGER16 (toUNSIGNED16 (hi * 256 + lo)) = RobotousRFT.s16 (256 * hi + lo) := by
  unfold toINTEGER16 toUNSIGNED16 RobotousRFT.s16
  split <;> omega

theorem List.exists_three_of_le_length {α : Type} (l : List α) (h : 3 ≤ l.length) :
    ∃ a b c rest, l = a :: b :: c :: rest := by
  match l, h with
  | a :: b :: c :: rest, _ => exact ⟨a, b, c, rest, rfl⟩

theorem RobotousRFT.bufferOf_lt (bytes : List Nat) (h : ∀ b ∈ bytes, b < 256) (i : Nat) :
    RobotousRFT.bufferOf bytes i < 256 := by
  unfold RobotousRFT.bufferOf
  rw [List.getD_eq_getElem?_getD]
  cases hi : bytes[i]? with
  | none => simp
  | some b => simpa using h b (List.getElem?_mem hi)

/-! ## RobotousRFT -/

namespace RobotousRFT

/-- Claim C1. On a streaming frame (`rawData[0] = 0x0B`, every buffer entry a byte value, the four
vectors holding at least their three coefficients) `updateInput` returns, and afterwards
`forces[i] = s16(256*rawData[1+2i] + rawData[2+2i]) / 50 - forceOffsets[i]` and
`torques[i] = s16(256*rawData[7+2i] + rawData[8+2i]) / 2000 - torqueOffsets[i]` for `i = 0, 1, 2`. -/
theorem updateInput_streaming_frame {R : Type} [IntCast R] [Sub R] [Div R] (s : RobotousRFT R)
    (hbyte : ∀ i, s.rawData i < 256) (hop : s.rawData 0 = 0x0B)
    (hf : 3 ≤ s.forces.length) (ht : 3 ≤ s.torques.length)
    (hfo : 3 ≤ s.forceOffsets.length) (hto : 3 ≤ s.torqueOffsets.length) :
    ∃ s', updateInput s = some s' ∧
      ∀ i, i < 3 →
        s'.forces[i]? = (s.forceOffsets[i]?).map (fun o =>
          ((s16 (256 * s.rawData (1 + 2 * i) + s.rawData (2 + 2 * i)) : Int) : R) / ((50 : Int) : R) - o) ∧
        s'.torques[i]? = (s.torqueOffsets[i]?).map (fun o =>
          ((s16 (256 * s.rawData (7 + 2 * i) + s.rawData (8 + 2 * i)) : Int) : R) / ((2000 : Int) : R) - o) := by
  obtain ⟨f0, f1, f2, fr, hF⟩ := List.exists_three_of_le_length _ hf
  obtain ⟨t0, t1, t2, tr, hT⟩ := List.exists_three_of_le_length _ ht
  obtain ⟨o0, o1, o2, orest, hO⟩ := List.exists_three_of_le_length _ hfo
  obtain ⟨q0, q1, q2, qrest, hQ⟩ := List.exists_three_of_le_length _ hto
  have hres : updateInput s = some { s with
      forces :=
        (((toINTEGER16 (toUNSIGNED16 (s.rawData 1 * 256 + s.rawData 2)) : Int) : R) / ((50 : Int) : R) - o0) ::
        (((toINTEGER16 (toUNSIGNED16 (s.rawData 3 * 256 + s.rawData 4)) : Int) : R) / ((50 : Int) : R) - o1) ::
        (((toINTEGER16 (toUNSIGNED16 (s.rawData 5 * 256 + s.rawData 6)) : Int) : R) / ((50 : Int) : R) - o2) :: fr,
      torques :=
        (((toINTEGER16 (toUNSIGNED16 (s.rawData 7 * 256 + s.rawData 8)) : Int) : R) / ((2000 : Int) : R) - q0) ::
        (((toINTEGER16 (toUNSIGNED16 (s.rawData 9 * 256 + s.rawData 10)) : Int) : R) / ((2000 : Int) : R) - q1) ::
        (((toINTEGER16 (toUNSIGNED16 (s.rawData 11 * 256 + s.rawData 12)) : Int) : R) / ((2000 : Int) : R) - q2) :: tr } := by
    simp [updateInput, hop, hF, hT, hO, hQ, VectorXd.coeff, VectorXd.assign]
  refine ⟨_, hres, ?_⟩
  intro i hi
  simp only [toINTEGER16_toUNSIGNED16 _ _ (hbyte _) (hbyte _)]
  interval_cases i <;> simp [hO, hQ]

/-- Witness of claim C1: the sample frame has `Fx = 0x09C4 = 2500` and `forceOffsets[0] = 1`, so
`forces[0] = 2500 / 50 - 1 = 50 - 1`; `Fy = 0xFF9C` is read as `-100`. -/
theorem updateInput_streaming_frame_witness :
    (∀ i, sampleStreaming.rawData i < 256) ∧ sampleStreaming.rawData 0 = 0x0B ∧
    ∃ s', updateInput sampleStreaming = some s' ∧
      s'.forces[0]? = some ((50 - 1 : ℚ)) ∧ s'.forces[1]? = some ((-2 - 2 : ℚ)) ∧
      s'.torques[0]? = some ((1 - 1 / 2 : ℚ)) := by
  have hb : ∀ i, sampleStreaming.rawData i < 256 := fun i => bufferOf_lt _ (by decide) i
  obtain ⟨s', hs, hv⟩ := updateInput_streaming_frame sampleStreaming hb rfl
    (by decide) (by decide) (by decide) (by decide)
  refine ⟨hb, rfl, s', hs, ?_, ?_, ?_⟩
  · have h := (hv 0 (by decide)).1
    rw [h]
    norm_num [sampleStreaming, bufferOf, s16]
  · have h := (hv 1 (by decide)).1
    rw [h]
    norm_num [sampleStreaming, bufferOf, s16]
  · have h := (hv 0 (by decide)).2
    rw [h]
    norm_num [sampleStreaming, bufferOf, s16]

/-- Claim C2. When the first byte of the buffer is not `0x0B`, whatever the other bytes and
whatever the sensor state, `updateInput` returns and leaves the whole object as it was: forces,
torques, both offset vectors, `cmdData` and the streaming flag keep their values. -/
theorem updateInput_other_opcode {R : Type} [IntCast R] [Sub R] [Div R] (s : RobotousRFT R)
    (hop : s.rawData 0 ≠ 0x0B) :
    updateInput s = some s ∧
    ∀ s', updateInput s = some s' →
      s'.forces = s.forces ∧ s'.torques = s.torques ∧ s'.forceOffsets = s.forceOffsets ∧
      s'.torqueOffsets = s.torqueOffsets ∧ s'.cmdData = s.cmdData ∧ s'.streaming = s.streaming := by
  have h : updateInput s = some s := by
    unfold updateInput
    rw [if_neg hop]
  refine ⟨h, ?_⟩
  intro s' hs'
  rw [h] at hs'
  cases hs'
  exact ⟨rfl, rfl, rfl, rfl, rfl, rfl⟩

/-- Witness of claim C2: the idle sample's buffer starts with `0x0C`; its earlier readings
`forces = (49, -4, 7)` survive `updateInput`. -/
theorem updateInput_other_opcode_witness :
    sampleIdle.rawData 0 ≠ 0x0B ∧ updateInput sampleIdle = some sampleIdle ∧
    (updateInput sampleIdle).map (fun s => s.forces) = some [49, -4, 7] := by
  have hop : sampleIdle.rawData 0 ≠ 0x0B := by decide
  have h := (updateInput_other_opcode sampleIdle hop).1
  refine ⟨hop, h, ?_⟩
  rw [h]
  rfl

/-- Claim C7. From a sensor that is not streaming, whatever its forces, torques and offsets,
`startStream` followed by `stopStream` makes `stopStream` return true and leaves
`forces = (0, 0, 0)` and `torques = (0, 0, 0)`; a second `stopStream` right after returns false. -/
theorem stopStream_after_startStream {R : Type} [Zero R] (s : RobotousRFT R)
    (hs : s.streaming = false) :
    (stopStream (startStream s).2).1 = true ∧
    (stopStream (startStream s).2).2.forces = [0, 0, 0] ∧
    (stopStream (startStream s).2).2.torques = [0, 0, 0] ∧
    (stopStream (stopStream (startStream s).2).2).1 = false := by
  simp [startStream, stopStream, hs, VectorXd.Zero, List.replicate]

/-- Witness of claim C7: on the idle sample, whose forces are `(49, -4, 7)` and whose force offsets
are `(1, 2, 3)`, start then stop leaves the forces at `(0, 0, 0)`. -/
theorem stopStream_after_startStream_witness :
    sampleIdle.streaming = false ∧
    (stopStream (startStream sampleIdle).2).1 = true ∧
    (stopStream (startStream sampleIdle).2).2.forces = [0, 0, 0] ∧
    (stopStream (startStream sampleIdle).2).2.torques = [0, 0, 0] ∧
    (stopStream (stopStream (startStream sampleIdle).2).2).1 = false :=
  ⟨rfl, stopStream_after_startStream sampleIdle rfl⟩

/-- Claim C8. From a sensor that is not streaming, two consecutive `startStream` calls return true
then false, and `getStreaming` returns true after each of them. -/
theorem startStream_twice {R : Type} (s : RobotousRFT R) (hs : s.streaming = false) :
    (startStream s).1 = true ∧ getStreaming (startStream s).2 = true ∧
    (startStream (startStream s).2).1 = false ∧
    getStreaming (startStream (startStream s).2).2 = true := by
  simp [startStream, getStreaming, hs]

/-- Witness of claim C8 on the idle sample. -/
theorem startStream_twice_witness :
    sampleIdle.streaming = false ∧
    (startStream sampleIdle).1 = true ∧ getStreaming (startStream sampleIdle).2 = true ∧
    (startStream (startStream sampleIdle).2).1 = false ∧
    getStreaming (startStream (startStream sampleIdle).2).2 = true :=
  ⟨rfl, startStream_twice sampleIdle rfl⟩

/-- Claim C9. The guarded calls change nothing: on a sensor that is streaming `startStream` returns
false and the object is as before; on a sensor that is not streaming `stopStream` returns false
and the object is as before, so forces and torques are not zeroed and `cmdData` is not written. -/
theorem guarded_calls_no_op {R : Type} [Zero R] (s t : RobotousRFT R)
    (hs : s.streaming = true) (ht : t.streaming = false) :
    startStream s = (false, s) ∧ stopStream t = (false, t) := by
  simp [startStream, stopStream, hs, ht]

/-- Witness of claim C9: `startStream` on the streaming sample and `stopStream` on the idle sample,
whose forces stay `(49, -4, 7)` and whose command slot stays `0`. -/
theorem guarded_calls_no_op_witness :
    sampleStreaming.streaming = true ∧ sampleIdle.streaming = false ∧
    startStream sampleStreaming = (false, sampleStreaming) ∧
    stopStream sampleIdle = (false, sampleIdle) ∧
    (stopStream sampleIdle).2.forces = [49, -4, 7] ∧ (stopStream sampleIdle).2.cmdData = 0 := by
  have h := guarded_calls_no_op sampleStreaming sampleIdle rfl rfl
  refine ⟨rfl, rfl, h.1, h.2, ?_, ?_⟩
  · rw [h.2]
    rfl
  · rw [h.2]
    rfl

end RobotousRFT

/-! ## ExoRobot -/

namespace ExoRobot

open setMovementReturnCode_t ControlMode

variable {Ptr W R P : Type}

/-- The set loop in closed form: the calls it adds pair the joints with the coefficients of `v`
from index `i` on, the outside state is the one reached by making these calls one after the other,
and a code is returned exactly when `v` has a coefficient for every joint; the code is the fold of
`nextReturnValue` over the codes of the added calls. -/
theorem setLoop_spec (jointSet : Ptr → R → W → setMovementReturnCode_t × W) (v : List R) :
    ∀ (joints : List Ptr) (i : Nat) (rv : setMovementReturnCode_t) (w : W)
      (log : List (SetCall Ptr R)),
      ∃ new : List (SetCall Ptr R),
        (setLoop jointSet v joints i rv w log).calls = log ++ new ∧
        new.map (fun c => (c.joint, c.value)) = joints.zip (v.drop i) ∧
        (setLoop jointSet v joints i rv w log).world =
          (joints.zip (v.drop i)).foldl (fun u c => (jointSet c.1 c.2 u).2) w ∧
        (setLoop jointSet v joints i rv w log).returned =
          if joints.length ≤ v.length - i then
            some (new.foldl (fun a c => nextReturnValue a c.code) rv)
          else none := by
  intro joints
  induction joints with
  | nil =>
    intro i rv w log
    exact ⟨[], by simp [setLoop], by simp, by simp [setLoop], by simp [setLoop]⟩
  | cons p rest ih =>
    intro i rv w log
    cases hx : v[i]? with
    | none =>
      have hi : v.length ≤ i := List.getElem?_eq_none_iff.mp hx
      refine ⟨[], by simp [setLoop, VectorXd.coeff, hx], ?_, ?_, ?_⟩
      · simp [List.drop_eq_nil_of_le hi]
      · simp [setLoop, VectorXd.coeff, hx, List.drop_eq_nil_of_le hi]
      · have : ¬ (rest.length + 1 ≤ v.length - i) := by omega
        simp [setLoop, VectorXd.coeff, hx, this]
    | some x =>
      have hi : i < v.length := (List.getElem?_eq_some_iff.mp hx).1
      have hdrop : v.drop i = x :: v.drop (i + 1) := by
        rw [List.drop_eq_getElem_cons hi]
        congr 1
        exact (List.getElem?_eq_some_iff.mp hx).2
      obtain ⟨new, hc, hz, hw, hr⟩ := ih (i + 1) (nextReturnValue rv (jointSet p x w).1)
        (jointSet p x w).2 (log ++ [⟨p, x, (jointSet p x w).1⟩])
      refine ⟨⟨p, x, (jointSet p x w).1⟩ :: new, ?_, ?_, ?_, ?_⟩
      · simp [setLoop, VectorXd.coeff, hx, hc]
      · simp [hdrop, hz]
      · simp [setLoop, VectorXd.coeff, hx, hw, hdrop]
      · have hiff : (rest.length + 1 ≤ v.length - i) ↔ (rest.length ≤ v.length - (i + 1)) := by
          omega
        simp only [setLoop, VectorXd.coeff, hx, hr, List.length_cons, List.foldl_cons, hiff]

/-- The loop run from its initial values `i = 0`, `returnValue = SUCCESS`, no call made yet. -/
theorem setLoop_start (jointSet : Ptr → R → W → setMovementReturnCode_t × W) (v : List R)
    (joints : List Ptr) (w : W) :
    (setLoop jointSet v joints 0 SUCCESS w []).calls.map (fun c => (c.joint, c.value))
        = joints.zip v ∧
    (setLoop jointSet v joints 0 SUCCESS w []).returned =
      if joints.length ≤ v.length then
        some ((setLoop jointSet v joints 0 SUCCESS w []).calls.foldl
          (fun a c => nextReturnValue a c.code) SUCCESS)
      else none := by
  obtain ⟨new, hc, hz, -, hr⟩ := setLoop_spec jointSet v joints 0 SUCCESS w []
  simp only [List.nil_append] at hc
  rw [hc]
  exact ⟨by simpa using hz, by simpa using hr⟩

/-- The outside state after the loop run from its initial values. -/
theorem setLoop_start_world (jointSet : Ptr → R → W → setMovementReturnCode_t × W) (v : List R)
    (joints : List Ptr) (w : W) :
    (setLoop jointSet v joints 0 SUCCESS w []).world =
      (joints.zip v).foldl (fun u c => (jointSet c.1 c.2 u).2) w := by
  obtain ⟨new, -, -, hw, -⟩ := setLoop_spec jointSet v joints 0 SUCCESS w []
  simpa using hw

/-- Every record the set loop adds carries the code the hardware returned for that call, in the
outside state the earlier calls of the loop left. -/
theorem setLoop_codes (jointSet : Ptr → R → W → setMovementReturnCode_t × W) (v : List R) :
    ∀ (joints : List Ptr) (i : Nat) (rv : setMovementReturnCode_t) (w : W)
      (log : List (SetCall Ptr R)),
      ∃ new : List (SetCall Ptr R),
        (setLoop jointSet v joints i rv w log).calls = log ++ new ∧
        CodesFromHardware jointSet w new := by
  intro joints
  induction joints with
  | nil =>
    intro i rv w log
    refine ⟨[], by simp [setLoop], ?_⟩
    intro k c hc
    simp at hc
  | cons p rest ih =>
    intro i rv w log
    cases hx : v[i]? with
    | none =>
      refine ⟨[], by simp [setLoop, VectorXd.coeff, hx], ?_⟩
      intro k c hc
      simp at hc
    | some x =>
      obtain ⟨new, hc, hcodes⟩ := ih (i + 1) (nextReturnValue rv (jointSet p x w).1)
        (jointSet p x w).2 (log ++ [⟨p, x, (jointSet p x w).1⟩])
      refine ⟨⟨p, x, (jointSet p x w).1⟩ :: new, by simp [setLoop, VectorXd.coeff, hx, hc], ?_⟩
      intro k c hk
      cases k with
      | zero =>
        simp only [List.getElem?_cons_zero, Option.some.injEq] at hk
        subst hk
        simp
      | succ k =>
        simp only [List.getElem?_cons_succ] at hk
        simp only [List.take_succ_cons, List.foldl_cons]
        exact hcodes k c hk

theorem setLoop_start_codes (jointSet : Ptr → R → W → setMovementReturnCode_t × W) (v : List R)
    (joints : List Ptr) (w : W) :
    CodesFromHardware jointSet w (setLoop jointSet v joints 0 SUCCESS w []).calls := by
  obtain ⟨new, hc, hcodes⟩ := setLoop_codes jointSet v joints 0 SUCCESS w []
  simp only [List.nil_append] at hc
  rw [hc]
  exact hcodes

theorem foldl_nextReturnValue_success_iff (calls : List (SetCall Ptr R)) :
    ∀ rv : setMovementReturnCode_t,
      calls.foldl (fun a c => nextReturnValue a c.code) rv = SUCCESS ↔
        rv = SUCCESS ∧ ∀ c ∈ calls, c.code = SUCCESS := by
  induction calls with
  | nil => intro rv; simp
  | cons c rest ih =>
    intro rv
    rw [List.foldl_cons, ih]
    cases hc : c.code <;> simp [nextReturnValue, hc]

theorem foldl_nextReturnValue_range (calls : List (SetCall Ptr R)) :
    ∀ rv : setMovementReturnCode_t,
      (rv = SUCCESS ∨ rv = INCORRECT_MODE ∨ rv = UNKNOWN_ERROR) →
      (calls.foldl (fun a c => nextReturnValue a c.code) rv = SUCCESS ∨
       calls.foldl (fun a c => nextReturnValue a c.code) rv = INCORRECT_MODE ∨
       calls.foldl (fun a c => nextReturnValue a c.code) rv = UNKNOWN_ERROR) := by
  induction calls with
  | nil => intro rv h; simpa using h
  | cons c rest ih =>
    intro rv h
    rw [List.foldl_cons]
    apply ih
    cases hc : c.code <;> simp [nextReturnValue, h]

/-- Claim C3. When the argument vector has one coefficient per joint, `setPosition`, `setVelocity`
and `setTorque` each call every joint, return a code, and that code is `SUCCESS` if and only if
every per-joint call returned `SUCCESS`; otherwise it is `INCORRECT_MODE` or `UNKNOWN_ERROR`. The
codes of the recorded calls are the codes the joint functions returned, each in the outside state
left by the calls before it. -/
theorem set_returns_success_iff (hw : Hardware Ptr W R P) (joints : List Ptr) (v : List R) (w : W)
    (hlen : v.length = joints.length) :
    (∀ out ∈ [setPosition hw joints v w, setVelocity hw joints v w, setTorque hw joints v w],
      out.calls.map (fun c => c.joint) = joints ∧
      ∃ r, out.returned = some r ∧
        (r = SUCCESS ↔ ∀ c ∈ out.calls, c.code = SUCCESS) ∧
        (r = SUCCESS ∨ r = INCORRECT_MODE ∨ r = UNKNOWN_ERROR)) ∧
    CodesFromHardware hw.setPosition w (setPosition hw joints v w).calls ∧
    CodesFromHardware hw.setVelocity w (setVelocity hw joints v w).calls ∧
    CodesFromHardware hw.setTorque w (setTorque hw joints v w).calls := by
  refine ⟨?_, setLoop_start_codes hw.setPosition v joints w,
    setLoop_start_codes hw.setVelocity v joints w, setLoop_start_codes hw.setTorque v joints w⟩
  have key : ∀ jointSet : Ptr → R → W → setMovementReturnCode_t × W,
      (setLoop jointSet v joints 0 SUCCESS w []).calls.map (fun c => c.joint) = joints ∧
      ∃ r, (setLoop jointSet v joints 0 SUCCESS w []).returned = some r ∧
        (r = SUCCESS ↔ ∀ c ∈ (setLoop jointSet v joints 0 SUCCESS w []).calls, c.code = SUCCESS) ∧
        (r = SUCCESS ∨ r = INCORRECT_MODE ∨ r = UNKNOWN_ERROR) := by
    intro jointSet
    obtain ⟨hz, hr⟩ := setLoop_start jointSet v joints w
    rw [if_pos (by omega)] at hr
    refine ⟨?_, _, hr, ?_, ?_⟩
    · have h := congrArg (List.map Prod.fst) hz
      rw [List.map_map] at h
      rw [List.map_fst_zip _ _ (by omega)] at h
      exact h
    · rw [foldl_nextReturnValue_success_iff]
      simp
    · exact foldl_nextReturnValue_range _ _ (Or.inl rfl)
  intro out hout
  simp only [List.mem_cons, List.mem_singleton, List.not_mem_nil, or_false] at hout
  rcases hout with rfl | rfl | rfl
  · exact key hw.setPosition
  · exact key hw.setVelocity
  · exact key hw.setTorque

/-- Claim C4. When the argument vector has one coefficient per joint, the per-joint calls made by
`setPosition`, `setVelocity` and `setTorque` are, in order, one call per joint in joint-index
order, joint `i` receiving `v[i]`, whatever codes the joints return; the outside state afterwards
is the one reached by making exactly these calls one after the other. -/
theorem set_calls_every_joint (hw : Hardware Ptr W R P) (joints : List Ptr) (v : List R) (w : W)
    (hlen : v.length = joints.length) :
    ∀ x ∈ [(setPosition hw joints v w, hw.setPosition), (setVelocity hw joints v w, hw.setVelocity),
        (setTorque hw joints v w, hw.setTorque)],
      x.1.calls.map (fun c => (c.joint, c.value)) = joints.zip v ∧
      x.1.calls.map (fun c => c.joint) = joints ∧
      x.1.calls.map (fun c => c.value) = v ∧
      x.1.world = (joints.zip v).foldl (fun u c => (x.2 c.1 c.2 u).2) w := by
  have key : ∀ jointSet : Ptr → R → W → setMovementReturnCode_t × W,
      (setLoop jointSet v joints 0 SUCCESS w []).calls.map (fun c => (c.joint, c.value))
          = joints.zip v ∧
      (setLoop jointSet v joints 0 SUCCESS w []).calls.map (fun c => c.joint) = joints ∧
      (setLoop jointSet v joints 0 SUCCESS w []).calls.map (fun c => c.value) = v ∧
      (setLoop jointSet v joints 0 SUCCESS w []).world =
        (joints.zip v).foldl (fun u c => (jointSet c.1 c.2 u).2) w := by
    intro jointSet
    obtain ⟨hz, -⟩ := setLoop_start jointSet v joints w
    refine ⟨hz, ?_, ?_, setLoop_start_world jointSet v joints w⟩
    · have h := congrArg (List.map Prod.fst) hz
      rw [List.map_map] at h
      rw [List.map_fst_zip _ _ (by omega)] at h
      exact h
    · have h := congrArg (List.map Prod.snd) hz
      rw [List.map_map] at h
      rw [List.map_snd_zip _ _ (by omega)] at h
      exact h
  intro x hx
  simp only [List.mem_cons, List.mem_singleton, List.not_mem_nil, or_false] at hx
  rcases hx with rfl | rfl | rfl
  · exact key hw.setPosition
  · exact key hw.setVelocity
  · exact key hw.setTorque

/-- Witness of claim C3: three joints of which the middle one answers `INCORRECT_MODE`; the call
returns `INCORRECT_MODE`. -/
theorem set_returns_success_iff_witness :
    ([0, 0, 1] : List ℚ).length = sampleJoints.length ∧
    (setPosition stubHardware sampleJoints [0, 0, 1] 0).returned = some INCORRECT_MODE ∧
    ∃ r, (setPosition stubHardware sampleJoints [0, 0, 1] 0).returned = some r ∧
      (r = SUCCESS ↔
        ∀ c ∈ (setPosition stubHardware sampleJoints [0, 0, 1] 0).calls, c.code = SUCCESS) ∧
      (r = SUCCESS ∨ r = INCORRECT_MODE ∨ r = UNKNOWN_ERROR) :=
  ⟨rfl, rfl,
    ((set_returns_success_iff stubHardware sampleJoints [0, 0, 1] 0 rfl).1 _
      (List.mem_cons_self _ _)).2⟩

/-- Witness of claim C4: the middle joint fails, the third joint is called all the same and
receives the third coefficient. -/
theorem set_calls_every_joint_witness :
    ([0, 0, 1] : List ℚ).length = sampleJoints.length ∧
    (setVelocity stubHardware sampleJoints [0, 0, 1] 0).calls.map (fun c => (c.joint, c.value))
      = [(⟨SUCCESS, true⟩, 0), (⟨INCORRECT_MODE, false⟩, 0), (⟨SUCCESS, true⟩, 1)] ∧
    (setVelocity stubHardware sampleJoints [0, 0, 1] 0).world = 3 :=
  ⟨rfl,
    (set_calls_every_joint stubHardware sampleJoints [0, 0, 1] 0 rfl
      (setVelocity stubHardware sampleJoints [0, 0, 1] 0, stubHardware.setVelocity)
      (List.mem_cons_of_mem _ (List.mem_cons_self _ _))).1, rfl⟩

/-- The set loop reads only the coefficients of `v` below `i + joints.length`. -/
theorem setLoop_take (jointSet : Ptr → R → W → setMovementReturnCode_t × W) :
    ∀ (joints : List Ptr) (v : List R) (i : Nat) (rv : setMovementReturnCode_t) (w : W)
      (log : List (SetCall Ptr R)), joints.length + i ≤ v.length →
      setLoop jointSet v joints i rv w log
        = setLoop jointSet (v.take (joints.length + i)) joints i rv w log := by
  intro joints
  induction joints with
  | nil => intro v i rv w log _; simp [setLoop]
  | cons p rest ih =>
    intro v i rv w log h
    simp only [List.length_cons] at h
    have hget : (v.take (rest.length + 1 + i))[i]? = v[i]? :=
      List.getElem?_take_of_lt (by omega)
    have hlen : (v.take (rest.length + 1 + i)).length = rest.length + 1 + i := by
      rw [List.length_take]
      omega
    have htake : (v.take (rest.length + 1 + i)).take (rest.length + (i + 1))
        = v.take (rest.length + (i + 1)) := by
      rw [List.take_take]
      congr 1
      omega
    simp only [setLoop, VectorXd.coeff, List.length_cons, hget]
    cases v[i]? with
    | none => rfl
    | some x =>
      simp only []
      rw [ih v (i + 1) _ _ _ (by omega), ih (v.take (rest.length + 1 + i)) (i + 1) _ _ _ (by omega),
        htake]

/-- Counterexample to claim C5: one joint and a vector of two coefficients; `setPosition` returns
`SUCCESS` and has commanded the joint with the first coefficient. -/
theorem setPosition_length_not_checked :
    ([1, 2] : List ℚ).length ≠ [(⟨SUCCESS, true⟩ : StubJoint)].length ∧
    (setPosition stubHardware [⟨SUCCESS, true⟩] [1, 2] 0).returned = some SUCCESS ∧
    (setPosition stubHardware [⟨SUCCESS, true⟩] [1, 2] 0).calls.map (fun c => (c.joint, c.value))
      = [(⟨SUCCESS, true⟩, 1)] ∧
    (setPosition stubHardware [⟨SUCCESS, true⟩] [1, 2] 0).world = 1 :=
  ⟨by decide, rfl, rfl, rfl⟩

/-- Claim C5 as amended. `setPosition` makes no length check, and a vector with more coefficients
than joints is not rejected: every joint `i` is commanded with `v[i]`, in index order, the
coefficients from index `N` on are ignored (the call does exactly what it does on the first `N`
coefficients), and a code is returned, `SUCCESS` if and only if every joint returned `SUCCESS`.
The calls recorded are the calls made on the hardware. Nothing is said here of a vector with fewer
coefficients than joints. -/
theorem setPosition_length_mismatch (hw : Hardware Ptr W R P) (joints : List Ptr) (v : List R)
    (w : W) (hlong : joints.length < v.length) :
    (setPosition hw joints v w).calls.map (fun c => (c.joint, c.value)) = joints.zip v ∧
    (setPosition hw joints v w).calls.map (fun c => c.joint) = joints ∧
    setPosition hw joints v w = setPosition hw joints (v.take joints.length) w ∧
    (∃ r, (setPosition hw joints v w).returned = some r ∧
      (r = SUCCESS ↔ ∀ c ∈ (setPosition hw joints v w).calls, c.code = SUCCESS)) ∧
    (setPosition hw joints v w).world
      = (joints.zip v).foldl (fun u c => (hw.setPosition c.1 c.2 u).2) w ∧
    CodesFromHardware hw.setPosition w (setPosition hw joints v w).calls := by
  obtain ⟨hz, hr⟩ := setLoop_start hw.setPosition v joints w
  rw [if_pos (by omega)] at hr
  refine ⟨hz, ?_, ?_, ⟨_, hr, ?_⟩, setLoop_start_world hw.setPosition v joints w,
    setLoop_start_codes hw.setPosition v joints w⟩
  · have h := congrArg (List.map Prod.fst) hz
    rw [List.map_map] at h
    have hzip : (joints.zip v).map Prod.fst = joints := by
      rw [List.map_fst_zip]
      omega
    rw [hzip] at h
    exact h
  · exact setLoop_take hw.setPosition joints v 0 SUCCESS w [] (by omega)
  · rw [foldl_nextReturnValue_success_iff]
    simp [setPosition]

/-- Witness of claim C5 as amended: three joints and a vector of five coefficients; every joint is
commanded, the two surplus coefficients are ignored and the aggregate code `INCORRECT_MODE` of the
three joints is returned. -/
theorem setPosition_length_mismatch_witness :
    sampleJoints.length < ([0, 0, 1, 7, 9] : List ℚ).length ∧
    setPosition stubHardware sampleJoints [0, 0, 1, 7, 9] 0
      = setPosition stubHardware sampleJoints [0, 0, 1] 0 ∧
    (setPosition stubHardware sampleJoints [0, 0, 1, 7, 9] 0).calls.map (fun c => c.joint)
      = sampleJoints ∧
    (setPosition stubHardware sampleJoints [0, 0, 1, 7, 9] 0).returned = some INCORRECT_MODE ∧
    (setPosition stubHardware sampleJoints [0, 0, 1, 7, 9] 0).world = 3 := by
  obtain ⟨-, hj, htake, -, hworld, -⟩ :=
    setPosition_length_mismatch stubHardware sampleJoints [0, 0, 1, 7, 9] 0 (by decide)
  refine ⟨by decide, htake, hj, rfl, ?_⟩
  rw [hworld]
  rfl

/-- Counterexample to claim C6: two joints answering `UNKNOWN_ERROR` then `INCORRECT_MODE` give
`INCORRECT_MODE`, the same two joints in the other order give `UNKNOWN_ERROR`; hence no severity
order that separates the two failure codes makes the returned code the most severe one seen. -/
theorem severity_order_refuted :
    (setPosition stubHardware [⟨UNKNOWN_ERROR, true⟩, ⟨INCORRECT_MODE, true⟩] [0, 0] 0).returned
      = some INCORRECT_MODE ∧
    (setPosition stubHardware [⟨INCORRECT_MODE, true⟩, ⟨UNKNOWN_ERROR, true⟩] [0, 0] 0).returned
      = some UNKNOWN_ERROR ∧
    ¬ ∃ sev : setMovementReturnCode_t → Nat,
        sev SUCCESS < sev INCORRECT_MODE ∧ sev SUCCESS < sev UNKNOWN_ERROR ∧
        sev INCORRECT_MODE ≠ sev UNKNOWN_ERROR ∧
        ∀ (joints : List StubJoint) (v : List ℚ), v.length = joints.length →
          ∃ r, (setPosition stubHardware joints v 0).returned = some r ∧
            (∀ c ∈ (setPosition stubHardware joints v 0).calls, sev (countedAs c.code) ≤ sev r) ∧
            (r = SUCCESS ∨ ∃ c ∈ (setPosition stubHardware joints v 0).calls, countedAs c.code = r) := by
  refine ⟨rfl, rfl, ?_⟩
  rintro ⟨sev, -, -, hne, hall⟩
  obtain ⟨r1, hr1, hmax1, -⟩ := hall [⟨UNKNOWN_ERROR, true⟩, ⟨INCORRECT_MODE, true⟩] [0, 0] rfl
  obtain ⟨r2, hr2, hmax2, -⟩ := hall [⟨INCORRECT_MODE, true⟩, ⟨UNKNOWN_ERROR, true⟩] [0, 0] rfl
  have e1 : r1 = INCORRECT_MODE := by
    have : some r1 = some INCORRECT_MODE := hr1.symm.trans rfl
    exact Option.some.inj this
  have e2 : r2 = UNKNOWN_ERROR := by
    have : some r2 = some UNKNOWN_ERROR := hr2.symm.trans rfl
    exact Option.some.inj this
  have a := hmax1 ⟨⟨UNKNOWN_ERROR, true⟩, 0, UNKNOWN_ERROR⟩ (List.mem_cons_self _ _)
  have b := hmax2 ⟨⟨INCORRECT_MODE, true⟩, 0, INCORRECT_MODE⟩ (List.mem_cons_self _ _)
  rw [e1] at a
  rw [e2] at b
  simp only [countedAs] at a b
  exact hne (Nat.le_antisymm b a)

theorem foldl_nextReturnValue_rank (calls : List (SetCall Ptr R)) :
    ∀ rv : setMovementReturnCode_t,
      failureRank rv ≤ failureRank (calls.foldl (fun a c => nextReturnValue a c.code) rv) ∧
      (∀ c ∈ calls, failureRank (countedAs c.code)
        ≤ failureRank (calls.foldl (fun a c => nextReturnValue a c.code) rv)) ∧
      (calls.foldl (fun a c => nextReturnValue a c.code) rv = rv ∨
        ∃ c ∈ calls, countedAs c.code = calls.foldl (fun a c => nextReturnValue a c.code) rv) := by
  induction calls with
  | nil => intro rv; simp
  | cons c rest ih =>
    intro rv
    rw [List.foldl_cons]
    obtain ⟨h1, h2, h3⟩ := ih (nextReturnValue rv c.code)
    have hstep : failureRank rv ≤ failureRank (nextReturnValue rv c.code) ∧
        failureRank (countedAs c.code) ≤ failureRank (nextReturnValue rv c.code) ∧
        (nextReturnValue rv c.code = rv ∨ countedAs c.code = nextReturnValue rv c.code) := by
      cases hc : c.code <;> cases rv <;> simp [nextReturnValue, countedAs, failureRank]
    refine ⟨le_trans hstep.1 h1, ?_, ?_⟩
    · intro d hd
      rcases List.mem_cons.mp hd with rfl | hd
      · exact le_trans hstep.2.1 h1
      · exact h2 d hd
    · rcases h3 with h3 | ⟨d, hd, h3⟩
      · rcases hstep.2.2 with h4 | h4
        · left
          rw [h3, h4]
        · right
          exact ⟨c, List.mem_cons_self _ _, by rw [h3, h4]⟩
      · right
        exact ⟨d, List.mem_cons_of_mem _ hd, h3⟩

/-- Claim C6 as amended. Rank `SUCCESS` below the failure codes and the failure codes level with
one another (`failureRank`); a per-joint code other than `SUCCESS` and `INCORRECT_MODE` counts as
`UNKNOWN_ERROR`. Then the code returned by `setPosition`, `setVelocity`, `setTorque` is of the
highest rank seen across the joints, and it is `SUCCESS` or one of the codes seen. The codes seen
are the codes the joint functions returned, each in the outside state left by the calls before
it. -/
theorem set_returns_most_severe_rank (hw : Hardware Ptr W R P) (joints : List Ptr) (v : List R)
    (w : W) (hlen : v.length = joints.length) :
    (∀ out ∈ [setPosition hw joints v w, setVelocity hw joints v w, setTorque hw joints v w],
      ∃ r, out.returned = some r ∧
        (∀ c ∈ out.calls, failureRank (countedAs c.code) ≤ failureRank r) ∧
        (r = SUCCESS ∨ ∃ c ∈ out.calls, countedAs c.code = r)) ∧
    CodesFromHardware hw.setPosition w (setPosition hw joints v w).calls ∧
    CodesFromHardware hw.setVelocity w (setVelocity hw joints v w).calls ∧
    CodesFromHardware hw.setTorque w (setTorque hw joints v w).calls := by
  refine ⟨?_, setLoop_start_codes hw.setPosition v joints w,
    setLoop_start_codes hw.setVelocity v joints w, setLoop_start_codes hw.setTorque v joints w⟩
  have key : ∀ jointSet : Ptr → R → W → setMovementReturnCode_t × W,
      ∃ r, (setLoop jointSet v joints 0 SUCCESS w []).returned = some r ∧
        (∀ c ∈ (setLoop jointSet v joints 0 SUCCESS w []).calls,
          failureRank (countedAs c.code) ≤ failureRank r) ∧
        (r = SUCCESS ∨
          ∃ c ∈ (setLoop jointSet v joints 0 SUCCESS w []).calls, countedAs c.code = r) := by
    intro jointSet
    obtain ⟨-, hr⟩ := setLoop_start jointSet v joints w
    rw [if_pos (by omega)] at hr
    obtain ⟨-, h2, h3⟩ :=
      foldl_nextReturnValue_rank (setLoop jointSet v joints 0 SUCCESS w []).calls SUCCESS
    exact ⟨_, hr, h2, h3⟩
  intro out hout
  simp only [List.mem_cons, List.mem_singleton, List.not_mem_nil, or_false] at hout
  rcases hout with rfl | rfl | rfl
  · exact key hw.setPosition
  · exact key hw.setVelocity
  · exact key hw.setTorque

/-- Witness of claim C6 as amended: three joints of which the middle one answers
`INCORRECT_MODE`; `setTorque` returns `INCORRECT_MODE`, of rank 1. -/
theorem set_returns_most_severe_rank_witness :
    ([0, 0, 1] : List ℚ).length = sampleJoints.length ∧
    (setTorque stubHardware sampleJoints [0, 0, 1] 0).returned = some INCORRECT_MODE ∧
    ∃ r, (setTorque stubHardware sampleJoints [0, 0, 1] 0).returned = some r ∧
      (∀ c ∈ (setTorque stubHardware sampleJoints [0, 0, 1] 0).calls,
        failureRank (countedAs c.code) ≤ failureRank r) ∧
      (r = SUCCESS ∨
        ∃ c ∈ (setTorque stubHardware sampleJoints [0, 0, 1] 0).calls, countedAs c.code = r) :=
  ⟨rfl, rfl,
    (set_returns_most_severe_rank stubHardware sampleJoints [0, 0, 1] 0 rfl).1 _
      (List.mem_cons_of_mem _ (List.mem_cons_of_mem _ (List.mem_cons_self _ _)))⟩

theorem modeAttempts_append (a b : List (InitCommand Ptr)) :
    modeAttempts (a ++ b) = modeAttempts a ++ modeAttempts b := by
  induction a with
  | nil => rfl
  | cons c rest ih => cases c <;> simp [modeAttempts, ih]

/-- A concrete run of `initVelocityControl` on the three sample joints: the middle joint fails to
switch, the flag is false, and the third joint is still asked to switch and every joint enabled. -/
theorem initVelocityControl_sample :
    (initVelocityControl stubHardware sampleJoints 0).returned = false ∧
    modeAttempts (initVelocityControl stubHardware sampleJoints 0).commands
      = [(⟨SUCCESS, true⟩, VELOCITY_CONTROL, VELOCITY_CONTROL),
         (⟨INCORRECT_MODE, false⟩, VELOCITY_CONTROL, NONE),
         (⟨SUCCESS, true⟩, VELOCITY_CONTROL, VELOCITY_CONTROL)] ∧
    (initVelocityControl stubHardware sampleJoints 0).world = 9 :=
  ⟨rfl, rfl, rfl⟩

end ExoRobot

/-! ## ExoRobot: command order, network bring-up, readback, construction and release -/

namespace ExoRobot

open setMovementReturnCode_t ControlMode

variable {Ptr W R P : Type}

theorem enableLoop_commands (enable : Ptr → W → W) :
    ∀ (joints : List Ptr) (w : W) (log : List (InitCommand Ptr)),
      (enableLoop enable joints w log).2 = log ++ joints.map InitCommand.enable := by
  intro joints
  induction joints with
  | nil => intro w log; simp [enableLoop]
  | cons p rest ih =>
    intro w log
    simp only [enableLoop]
    rw [ih]
    simp

theorem enableLoop_world (enable : Ptr → W → W) :
    ∀ (joints : List Ptr) (w : W) (log : List (InitCommand Ptr)),
      (enableLoop enable joints w log).1 = joints.foldl (fun u q => enable q u) w := by
  intro joints
  induction joints with
  | nil => intro w log; rfl
  | cons p rest ih =>
    intro w log
    simp only [enableLoop, List.foldl_cons]
    rw [ih]

/-- The mode loop in closed form. `rs` lists the modes the `setMode` calls returned: entry `k` is
what `setMode` returned on joint `k` in the outside state left by the calls on the joints before
it. The commands are `setMode` then `readyToSwitchOn` per joint in order, the outside state is the
one these calls leave, and `returnValue` ends true exactly when it was true and every returned mode
is the requested one. -/
theorem modeLoop_run (jointSetMode : Ptr → W → ControlMode × W) (ready : Ptr → W → W)
    (mode : ControlMode) :
    ∀ (joints : List Ptr) (rv : Bool) (w : W) (log : List (InitCommand Ptr)),
      ∃ rs : List ControlMode, rs.length = joints.length ∧
        (∀ k p, joints[k]? = some p →
          rs[k]? = some (jointSetMode p
            ((joints.take k).foldl (fun u q => ready q (jointSetMode q u).2) w)).1) ∧
        (modeLoop jointSetMode ready mode joints rv w log).2.2 = log ++
          (List.zipWith (fun p r => [InitCommand.setMode p mode r, InitCommand.readyToSwitchOn p])
            joints rs).flatten ∧
        (modeLoop jointSetMode ready mode joints rv w log).2.1
          = joints.foldl (fun u q => ready q (jointSetMode q u).2) w ∧
        ((modeLoop jointSetMode ready mode joints rv w log).1 = true ↔
          rv = true ∧ ∀ r ∈ rs, r = mode) := by
  intro joints
  induction joints with
  | nil =>
    intro rv w log
    exact ⟨[], rfl, by simp, by simp [modeLoop], by simp [modeLoop], by simp [modeLoop]⟩
  | cons p rest ih =>
    intro rv w log
    obtain ⟨rs, hlen, hidx, hcmd, hworld, hflag⟩ :=
      ih (if (jointSetMode p w).1 ≠ mode then false else rv)
        (ready p (jointSetMode p w).2)
        (log ++ [InitCommand.setMode p mode (jointSetMode p w).1, InitCommand.readyToSwitchOn p])
    refine ⟨(jointSetMode p w).1 :: rs, by simp [hlen], ?_, ?_, ?_, ?_⟩
    · intro k q hq
      cases k with
      | zero =>
        simp only [List.getElem?_cons_zero, Option.some.injEq] at hq
        subst hq
        simp
      | succ k =>
        simp only [List.getElem?_cons_succ] at hq
        simp only [List.getElem?_cons_succ, List.take_succ_cons, List.foldl_cons]
        exact hidx k q hq
    · simp only [modeLoop]
      rw [hcmd]
      simp
    · simp only [modeLoop, List.foldl_cons]
      rw [hworld]
    · simp only [modeLoop]
      rw [hflag]
      by_cases hm : (jointSetMode p w).1 = mode <;> simp [hm]

theorem enabledJoints_append (a b : List (InitCommand Ptr)) :
    enabledJoints (a ++ b) = enabledJoints a ++ enabledJoints b := by
  induction a with
  | nil => rfl
  | cons c rest ih => cases c <;> simp [enabledJoints, ih]

theorem enabledJoints_modePhase (mode : ControlMode) :
    ∀ (joints : List Ptr) (rs : List ControlMode),
      enabledJoints (List.zipWith
        (fun p r => [InitCommand.setMode p mode r, InitCommand.readyToSwitchOn p])
        joints rs).flatten = [] := by
  intro joints
  induction joints with
  | nil => intro rs; rfl
  | cons p rest ih =>
    intro rs
    cases rs with
    | nil => rfl
    | cons r rs => simp [enabledJoints, ih]

theorem enabledJoints_map_enable (joints : List Ptr) :
    enabledJoints (joints.map InitCommand.enable) = joints := by
  induction joints with
  | nil => rfl
  | cons p rest ih => simp [enabledJoints, ih]

theorem modeAttempts_modePhase (mode : ControlMode) :
    ∀ (joints : List Ptr) (rs : List ControlMode),
      modeAttempts (List.zipWith
        (fun p r => [InitCommand.setMode p mode r, InitCommand.readyToSwitchOn p])
        joints rs).flatten = List.zipWith (fun p r => (p, mode, r)) joints rs := by
  intro joints
  induction joints with
  | nil => intro rs; rfl
  | cons p rest ih =>
    intro rs
    cases rs with
    | nil => rfl
    | cons r rs => simp [modeAttempts, ih]

theorem modeAttempts_map_enable (joints : List Ptr) :
    modeAttempts (joints.map InitCommand.enable) = [] := by
  induction joints with
  | nil => rfl
  | cons p rest ih => simp [modeAttempts, ih]

/-- The common body of the `init...Control` functions in closed form, in terms of the hardware
calls: the returned modes `rs` are what `jointSetMode` returned joint by joint along the outside
state, the commands are the mode pass, the pause and the enable pass, the outside state is the one
these calls leave, and the flag is true exactly when every returned mode is the requested one. -/
theorem initControl_run (hw : Hardware Ptr W R P) (jointSetMode : Ptr → W → ControlMode × W)
    (mode : ControlMode) (joints : List Ptr) (w : W) :
    ∃ rs : List ControlMode, rs.length = joints.length ∧
      (∀ k p, joints[k]? = some p →
        rs[k]? = some (jointSetMode p
          ((joints.take k).foldl (fun u q => hw.readyToSwitchOn q (jointSetMode q u).2) w)).1) ∧
      (initControl hw jointSetMode mode joints w).commands =
        (List.zipWith (fun p r => [InitCommand.setMode p mode r, InitCommand.readyToSwitchOn p])
          joints rs).flatten
        ++ InitCommand.usleep 2000 :: joints.map InitCommand.enable ∧
      (initControl hw jointSetMode mode joints w).world =
        joints.foldl (fun u q => hw.enable q u)
          (hw.usleep 2000
            (joints.foldl (fun u q => hw.readyToSwitchOn q (jointSetMode q u).2) w)) ∧
      ((initControl hw jointSetMode mode joints w).returned = true ↔ ∀ r ∈ rs, r = mode) := by
  obtain ⟨rs, hlen, hidx, hcmd, hworld, hflag⟩ :=
    modeLoop_run jointSetMode hw.readyToSwitchOn mode joints true w []
  refine ⟨rs, hlen, hidx, ?_, ?_, ?_⟩
  · simp only [initControl]
    rw [enableLoop_commands, hcmd]
    simp
  · simp only [initControl]
    rw [enableLoop_world, hworld]
  · simp only [initControl]
    rw [hflag]
    simp

/-- The flag in terms of the hardware calls, the `setMode` attempts recorded, and the outside
state, for the common body. -/
theorem initControl_flag (hw : Hardware Ptr W R P) (jointSetMode : Ptr → W → ControlMode × W)
    (mode : ControlMode) (joints : List Ptr) (w : W) :
    ((initControl hw jointSetMode mode joints w).returned = true ↔
      ∀ k p, joints[k]? = some p →
        (jointSetMode p
          ((joints.take k).foldl (fun u q => hw.readyToSwitchOn q (jointSetMode q u).2) w)).1
          = mode) ∧
    (modeAttempts (initControl hw jointSetMode mode joints w).commands).length = joints.length ∧
    (∀ k p, joints[k]? = some p →
      (modeAttempts (initControl hw jointSetMode mode joints w).commands)[k]? =
        some (p, mode, (jointSetMode p
          ((joints.take k).foldl (fun u q => hw.readyToSwitchOn q (jointSetMode q u).2) w)).1)) ∧
    (initControl hw jointSetMode mode joints w).world =
      joints.foldl (fun u q => hw.enable q u)
        (hw.usleep 2000
          (joints.foldl (fun u q => hw.readyToSwitchOn q (jointSetMode q u).2) w)) := by
  obtain ⟨rs, hlen, hidx, hcmd, hworld, hflag⟩ := initControl_run hw jointSetMode mode joints w
  have hatt : modeAttempts (initControl hw jointSetMode mode joints w).commands
      = List.zipWith (fun p r => (p, mode, r)) joints rs := by
    rw [hcmd, modeAttempts_append, modeAttempts_modePhase]
    simp [modeAttempts, modeAttempts_map_enable]
  refine ⟨?_, ?_, ?_, hworld⟩
  · rw [hflag]
    constructor
    · intro h k p hp
      have hr := hidx k p hp
      exact h _ (List.getElem?_mem hr)
    · intro h r hr
      obtain ⟨k, hk⟩ := List.getElem?_of_mem hr
      have hklt : k < joints.length := by
        have := (List.getElem?_eq_some_iff.mp hk).1
        omega
      have hp : joints[k]? = some joints[k] := List.getElem?_eq_getElem hklt
      have hr' := hidx k _ hp
      rw [hk] at hr'
      rw [Option.some.inj hr']
      exact h k _ hp
  · rw [hatt]
    simp [hlen]
  · intro k p hp
    rw [hatt, List.getElem?_zipWith, hp, hidx k p hp]

/-- Claim C10. Let `setMode` stand for the `setMode` call of the function (`initPositionControl`
requests `POSITION_CONTROL` with the motor profile, `initVelocityControl` `VELOCITY_CONTROL`,
`initTorqueControl` `TORQUE_CONTROL`). Each function returns true if and only if, for every joint
`k`, the `setMode` call on joint `k`, made in the outside state left by `setMode` and
`readyToSwitchOn` on the joints before it, returned the requested mode. One `setMode` is made per
joint, in order, whatever the earlier joints returned, and the outside state afterwards is the one
left by all these calls, the pause and `enable` on every joint. With no joints the result is
true. -/
theorem initControl_returns (hw : Hardware Ptr W R P) (posControlMotorProfile : P)
    (joints : List Ptr) (w : W) :
    ∀ x ∈ [(initPositionControl hw posControlMotorProfile joints w,
              fun p => hw.setModeProfile p POSITION_CONTROL posControlMotorProfile,
              POSITION_CONTROL),
           (initVelocityControl hw joints w, fun p => hw.setMode p VELOCITY_CONTROL,
              VELOCITY_CONTROL),
           (initTorqueControl hw joints w, fun p => hw.setMode p TORQUE_CONTROL, TORQUE_CONTROL)],
      (x.1.returned = true ↔
        ∀ k p, joints[k]? = some p →
          (x.2.1 p
            ((joints.take k).foldl (fun u q => hw.readyToSwitchOn q (x.2.1 q u).2) w)).1
            = x.2.2) ∧
      (modeAttempts x.1.commands).length = joints.length ∧
      (∀ k p, joints[k]? = some p →
        (modeAttempts x.1.commands)[k]? =
          some (p, x.2.2, (x.2.1 p
            ((joints.take k).foldl (fun u q => hw.readyToSwitchOn q (x.2.1 q u).2) w)).1)) ∧
      x.1.world =
        joints.foldl (fun u q => hw.enable q u)
          (hw.usleep 2000
            (joints.foldl (fun u q => hw.readyToSwitchOn q (x.2.1 q u).2) w)) ∧
      (joints = [] → x.1.returned = true) := by
  have key : ∀ (jointSetMode : Ptr → W → ControlMode × W) (mode : ControlMode),
      ((initControl hw jointSetMode mode joints w).returned = true ↔
        ∀ k p, joints[k]? = some p →
          (jointSetMode p
            ((joints.take k).foldl (fun u q => hw.readyToSwitchOn q (jointSetMode q u).2) w)).1
            = mode) ∧
      (modeAttempts (initControl hw jointSetMode mode joints w).commands).length
        = joints.length ∧
      (∀ k p, joints[k]? = some p →
        (modeAttempts (initControl hw jointSetMode mode joints w).commands)[k]? =
          some (p, mode, (jointSetMode p
            ((joints.take k).foldl (fun u q => hw.readyToSwitchOn q (jointSetMode q u).2) w)).1)) ∧
      (initControl hw jointSetMode mode joints w).world =
        joints.foldl (fun u q => hw.enable q u)
          (hw.usleep 2000
            (joints.foldl (fun u q => hw.readyToSwitchOn q (jointSetMode q u).2) w)) ∧
      (joints = [] → (initControl hw jointSetMode mode joints w).returned = true) := by
    intro jointSetMode mode
    obtain ⟨h1, h2, h3, h4⟩ := initControl_flag hw jointSetMode mode joints w
    refine ⟨h1, h2, h3, h4, ?_⟩
    intro hnil
    rw [h1]
    intro k p hp
    rw [hnil] at hp
    simp at hp
  intro x hx
  simp only [List.mem_cons, List.mem_singleton, List.not_mem_nil, or_false] at hx
  rcases hx with rfl | rfl | rfl
  · exact key _ _
  · exact key _ _
  · exact key _ _

/-- Witness of claim C10: three joints of which the middle one answers `NONE` to `setMode`. The
flag is false because that call did not return the requested mode; the third joint is asked all
the same, and the hardware has received nine calls. -/
theorem initControl_returns_witness :
    (initVelocityControl stubHardware sampleJoints 0).returned = false ∧
    (stubHardware.setMode ⟨INCORRECT_MODE, false⟩ VELOCITY_CONTROL 2).1 ≠ VELOCITY_CONTROL ∧
    (modeAttempts (initVelocityControl stubHardware sampleJoints 0).commands)[2]?
      = some (⟨SUCCESS, true⟩, VELOCITY_CONTROL, VELOCITY_CONTROL) ∧
    (initVelocityControl stubHardware sampleJoints 0).world = 9 := by
  obtain ⟨hflag, -, hatt, hworld, -⟩ := initControl_returns stubHardware () sampleJoints 0
    (initVelocityControl stubHardware sampleJoints 0,
      fun p => stubHardware.setMode p VELOCITY_CONTROL, VELOCITY_CONTROL)
    (List.mem_cons_of_mem _ (List.mem_cons_self _ _))
  have hfalse : (initVelocityControl stubHardware sampleJoints 0).returned = false := by
    cases hr : (initVelocityControl stubHardware sampleJoints 0).returned with
    | false => rfl
    | true =>
      have h := hflag.mp hr 1 ⟨INCORRECT_MODE, false⟩ rfl
      exact absurd h (by decide)
  refine ⟨hfalse.trans rfl, by decide, ?_, ?_⟩
  · rw [hatt 2 ⟨SUCCESS, true⟩ rfl]
    rfl
  · rw [hworld]
    rfl

/-- Claim C11. Whatever the joints return from `setMode`, the calls made by
`initPositionControl`, `initVelocityControl` and `initTorqueControl` are: for each joint in index
order `setMode` (requesting the mode of the function) then `readyToSwitchOn`; then
`usleep(2000)`; then `enable` on every joint in index order. The commands recorded have this
shape, with `rs` the modes the `setMode` calls returned, and the outside state afterwards is the
one left by exactly these hardware calls in this order. So every joint receives one `enable`,
whether its mode switch succeeded or not, and every `enable` comes after the last `setMode`. -/
theorem initControl_command_order (hw : Hardware Ptr W R P) (posControlMotorProfile : P)
    (joints : List Ptr) (w : W) :
    ∀ x ∈ [(initPositionControl hw posControlMotorProfile joints w,
              fun p => hw.setModeProfile p POSITION_CONTROL posControlMotorProfile,
              POSITION_CONTROL),
           (initVelocityControl hw joints w, fun p => hw.setMode p VELOCITY_CONTROL,
              VELOCITY_CONTROL),
           (initTorqueControl hw joints w, fun p => hw.setMode p TORQUE_CONTROL, TORQUE_CONTROL)],
      ∃ rs : List ControlMode, rs.length = joints.length ∧
        (∀ k p, joints[k]? = some p →
          rs[k]? = some (x.2.1 p
            ((joints.take k).foldl (fun u q => hw.readyToSwitchOn q (x.2.1 q u).2) w)).1) ∧
        x.1.commands =
          (List.zipWith (fun p r =>
            [InitCommand.setMode p x.2.2 r, InitCommand.readyToSwitchOn p]) joints rs).flatten
          ++ InitCommand.usleep 2000 :: joints.map InitCommand.enable ∧
        enabledJoints x.1.commands = joints ∧
        x.1.world =
          joints.foldl (fun u q => hw.enable q u)
            (hw.usleep 2000
              (joints.foldl (fun u q => hw.readyToSwitchOn q (x.2.1 q u).2) w)) := by
  have key : ∀ (jointSetMode : Ptr → W → ControlMode × W) (mode : ControlMode),
      ∃ rs : List ControlMode, rs.length = joints.length ∧
        (∀ k p, joints[k]? = some p →
          rs[k]? = some (jointSetMode p
            ((joints.take k).foldl (fun u q => hw.readyToSwitchOn q (jointSetMode q u).2) w)).1) ∧
        (initControl hw jointSetMode mode joints w).commands =
          (List.zipWith (fun p r =>
            [InitCommand.setMode p mode r, InitCommand.readyToSwitchOn p]) joints rs).flatten
          ++ InitCommand.usleep 2000 :: joints.map InitCommand.enable ∧
        enabledJoints (initControl hw jointSetMode mode joints w).commands = joints ∧
        (initControl hw jointSetMode mode joints w).world =
          joints.foldl (fun u q => hw.enable q u)
            (hw.usleep 2000
              (joints.foldl (fun u q => hw.readyToSwitchOn q (jointSetMode q u).2) w)) := by
    intro jointSetMode mode
    obtain ⟨rs, hlen, hidx, hcmd, hworld, -⟩ := initControl_run hw jointSetMode mode joints w
    refine ⟨rs, hlen, hidx, hcmd, ?_, hworld⟩
    rw [hcmd, enabledJoints_append, enabledJoints_modePhase]
    simp [enabledJoints, enabledJoints_map_enable]
  intro x hx
  simp only [List.mem_cons, List.mem_singleton, List.not_mem_nil, or_false] at hx
  rcases hx with rfl | rfl | rfl
  · exact key _ _
  · exact key _ _
  · exact key _ _

/-- Witness of claim C11 on hardware that keeps the list of the calls it receives: three joints of
which the middle one fails to switch. The hardware has received `setMode` and `readyToSwitchOn`
for each joint in order, then the pause, then `enable` for each joint in order, the failed joint
included. -/
theorem initControl_command_order_witness :
    (initVelocityControl loggingHardware sampleJoints []).world =
      [InitCommand.setMode ⟨SUCCESS, true⟩ VELOCITY_CONTROL VELOCITY_CONTROL,
       InitCommand.readyToSwitchOn ⟨SUCCESS, true⟩,
       InitCommand.setMode ⟨INCORRECT_MODE, false⟩ VELOCITY_CONTROL NONE,
       InitCommand.readyToSwitchOn ⟨INCORRECT_MODE, false⟩,
       InitCommand.setMode ⟨SUCCESS, true⟩ VELOCITY_CONTROL VELOCITY_CONTROL,
       InitCommand.readyToSwitchOn ⟨SUCCESS, true⟩,
       InitCommand.usleep 2000,
       InitCommand.enable ⟨SUCCESS, true⟩,
       InitCommand.enable ⟨INCORRECT_MODE, false⟩,
       InitCommand.enable ⟨SUCCESS, true⟩] ∧
    enabledJoints (initVelocityControl loggingHardware sampleJoints []).commands = sampleJoints := by
  obtain ⟨rs, -, -, -, hen, hworld⟩ := initControl_command_order loggingHardware () sampleJoints []
    (initVelocityControl loggingHardware sampleJoints [],
      fun p => loggingHardware.setMode p VELOCITY_CONTROL, VELOCITY_CONTROL)
    (List.mem_cons_of_mem _ (List.mem_cons_self _ _))
  refine ⟨?_, hen⟩
  rw [hworld]
  rfl

/-- A concrete run for claim C11: three joints of which the middle one fails to switch; it is
enabled like the others, after the pause. -/
theorem initControl_command_order_sample :
    (initVelocityControl stubHardware sampleJoints 0).commands =
      [InitCommand.setMode ⟨SUCCESS, true⟩ VELOCITY_CONTROL VELOCITY_CONTROL,
       InitCommand.readyToSwitchOn ⟨SUCCESS, true⟩,
       InitCommand.setMode ⟨INCORRECT_MODE, false⟩ VELOCITY_CONTROL NONE,
       InitCommand.readyToSwitchOn ⟨INCORRECT_MODE, false⟩,
       InitCommand.setMode ⟨SUCCESS, true⟩ VELOCITY_CONTROL VELOCITY_CONTROL,
       InitCommand.readyToSwitchOn ⟨SUCCESS, true⟩,
       InitCommand.usleep 2000,
       InitCommand.enable ⟨SUCCESS, true⟩,
       InitCommand.enable ⟨INCORRECT_MODE, false⟩,
       InitCommand.enable ⟨SUCCESS, true⟩] :=
  rfl

/-- The network loop in closed form: either every joint is called and answers true and the result
is true, or the calls stop at the first joint `k` that answers false, after `k` joints that
answered true, and the result is false. -/
theorem initialiseNetworkLoop_spec (jointInitNetwork : Ptr → W → Bool × W) :
    ∀ (joints : List Ptr) (w : W) (log : List (Ptr × Bool)),
      ∃ new : List (Ptr × Bool),
        (initialiseNetworkLoop jointInitNetwork joints w log).calls = log ++ new ∧
        (((initialiseNetworkLoop jointInitNetwork joints w log).returned = true ∧
            new.map Prod.fst = joints ∧ ∀ c ∈ new, c.2 = true) ∨
         ((initialiseNetworkLoop jointInitNetwork joints w log).returned = false ∧
            ∃ k, k < joints.length ∧ new.map Prod.fst = joints.take (k + 1) ∧
              new.map Prod.snd = List.replicate k true ++ [false])) := by
  intro joints
  induction joints with
  | nil =>
    intro w log
    exact ⟨[], by simp [initialiseNetworkLoop], Or.inl ⟨rfl, rfl, by simp⟩⟩
  | cons p rest ih =>
    intro w log
    cases hst : (jointInitNetwork p w).1 with
    | false =>
      refine ⟨[(p, false)], by simp [initialiseNetworkLoop, hst], Or.inr ⟨?_, 0, ?_, ?_, ?_⟩⟩
      · simp [initialiseNetworkLoop, hst]
      · simp
      · simp
      · simp
    | true =>
      obtain ⟨new, hc, h⟩ := ih (jointInitNetwork p w).2 (log ++ [(p, true)])
      refine ⟨(p, true) :: new, ?_, ?_⟩
      · simp [initialiseNetworkLoop, hst, hc]
      · rcases h with ⟨hr, hj, hall⟩ | ⟨hr, k, hk, hj, hs⟩
        · left
          refine ⟨by simpa [initialiseNetworkLoop, hst] using hr, by simp [hj], ?_⟩
          intro c hcm
          rcases List.mem_cons.mp hcm with rfl | hcm
          · rfl
          · exact hall c hcm
        · right
          refine ⟨by simpa [initialiseNetworkLoop, hst] using hr, k + 1, by simpa using hk, ?_, ?_⟩
          · simp [hj]
          · simp [hs, List.replicate_succ]

/-- The calls the network loop records are the calls made on the hardware, and the outside state
it leaves is the one these calls leave. -/
theorem initialiseNetworkLoop_calls (jointInitNetwork : Ptr → W → Bool × W) :
    ∀ (joints : List Ptr) (w : W) (log : List (Ptr × Bool)),
      ∃ new : List (Ptr × Bool),
        (initialiseNetworkLoop jointInitNetwork joints w log).calls = log ++ new ∧
        StatusesFromHardware jointInitNetwork w new ∧
        (initialiseNetworkLoop jointInitNetwork joints w log).world
          = new.foldl (fun u d => (jointInitNetwork d.1 u).2) w := by
  intro joints
  induction joints with
  | nil =>
    intro w log
    refine ⟨[], by simp [initialiseNetworkLoop], ?_, by simp [initialiseNetworkLoop]⟩
    intro k c hc
    simp at hc
  | cons p rest ih =>
    intro w log
    have hhead : StatusesFromHardware jointInitNetwork w [(p, (jointInitNetwork p w).1)] := by
      intro k c hk
      cases k with
      | zero =>
        simp only [List.getElem?_cons_zero, Option.some.injEq] at hk
        subst hk
        simp
      | succ k => simp at hk
    cases hst : (jointInitNetwork p w).1 with
    | false =>
      rw [hst] at hhead
      exact ⟨[(p, false)], by simp [initialiseNetworkLoop, hst], hhead,
        by simp [initialiseNetworkLoop, hst]⟩
    | true =>
      obtain ⟨new, hc, hcodes, hworld⟩ := ih (jointInitNetwork p w).2 (log ++ [(p, true)])
      refine ⟨(p, true) :: new, by simp [initialiseNetworkLoop, hst, hc], ?_, ?_⟩
      · intro k c hk
        cases k with
        | zero =>
          simp only [List.getElem?_cons_zero, Option.some.injEq] at hk
          subst hk
          simp [hst]
        | succ k =>
          simp only [List.getElem?_cons_succ] at hk
          simp only [List.take_succ_cons, List.foldl_cons]
          exact hcodes k c hk
      · simp only [initialiseNetworkLoop, hst, List.foldl_cons]
        simpa using hworld

/-- Claim C12. `initialiseNetwork` returns true if and only if `initNetwork` was called on every
joint, in order, and every call succeeded. When it returns false there is a first failing joint
`k`: `initNetwork` was called once on each of the joints `0..k` in order, the first `k` calls
succeeded, call `k` failed, and no joint after `k` was called. With no joints it returns true. The
calls recorded are the calls made on the hardware, each status being the one `initNetwork`
returned in the outside state left by the calls before it. -/
theorem initialiseNetwork_fail_fast (jointInitNetwork : Ptr → W → Bool × W) (joints : List Ptr)
    (w : W) :
    (((initialiseNetwork jointInitNetwork joints w).returned = true ↔
      ((initialiseNetwork jointInitNetwork joints w).calls.map Prod.fst = joints ∧
        ∀ c ∈ (initialiseNetwork jointInitNetwork joints w).calls, c.2 = true)) ∧
    ((initialiseNetwork jointInitNetwork joints w).returned = false →
      ∃ k, k < joints.length ∧
        (initialiseNetwork jointInitNetwork joints w).calls.map Prod.fst = joints.take (k + 1) ∧
        (initialiseNetwork jointInitNetwork joints w).calls.map Prod.snd
          = List.replicate k true ++ [false]) ∧
    (initialiseNetwork jointInitNetwork [] w).returned = true) ∧
    StatusesFromHardware jointInitNetwork w (initialiseNetwork jointInitNetwork joints w).calls ∧
    (initialiseNetwork jointInitNetwork joints w).world
      = (initialiseNetwork jointInitNetwork joints w).calls.foldl
          (fun u d => (jointInitNetwork d.1 u).2) w := by
  have hcalls : StatusesFromHardware jointInitNetwork w
        (initialiseNetwork jointInitNetwork joints w).calls ∧
      (initialiseNetwork jointInitNetwork joints w).world
        = (initialiseNetwork jointInitNetwork joints w).calls.foldl
            (fun u d => (jointInitNetwork d.1 u).2) w := by
    obtain ⟨new, hc, hcodes, hworld⟩ := initialiseNetworkLoop_calls jointInitNetwork joints w []
    simp only [List.nil_append] at hc
    unfold initialiseNetwork
    rw [hc]
    exact ⟨hcodes, hworld⟩
  refine ⟨?_, hcalls.1, hcalls.2⟩
  obtain ⟨new, hc, h⟩ := initialiseNetworkLoop_spec jointInitNetwork joints w []
  simp only [List.nil_append] at hc
  unfold initialiseNetwork
  rw [hc]
  refine ⟨?_, ?_, rfl⟩
  · constructor
    · intro hr
      rcases h with ⟨-, hj, hall⟩ | ⟨hf, -⟩
      · exact ⟨hj, hall⟩
      · rw [hr] at hf
        exact absurd hf (by decide)
    · rintro ⟨-, hall⟩
      rcases h with ⟨hr, -⟩ | ⟨-, k, -, -, hs⟩
      · exact hr
      · have hmem : false ∈ new.map Prod.snd := by
          rw [hs]
          simp
        obtain ⟨c, hcm, hc2⟩ := List.mem_map.mp hmem
        have := hall c hcm
        rw [hc2] at this
        exact absurd this (by decide)
  · intro hr
    rcases h with ⟨ht, -⟩ | ⟨-, k, hk, hj, hs⟩
    · rw [hr] at ht
      exact absurd ht (by decide)
    · exact ⟨k, hk, hj, hs⟩

/-- Witness of claim C12: four joints of which the second cannot be reached (a joint is given by
whether it can be reached, the outside state counts the calls). Two calls are made and the result
is false. -/
theorem initialiseNetwork_fail_fast_witness :
    (initialiseNetwork (fun (p : Bool) (n : Nat) => (p, n + 1)) [true, false, true, false]
      0).returned = false ∧
    (initialiseNetwork (fun (p : Bool) (n : Nat) => (p, n + 1)) [true, false, true, false]
      0).world = 2 ∧
    ∃ k, k < 4 ∧
      (initialiseNetwork (fun (p : Bool) (n : Nat) => (p, n + 1)) [true, false, true, false]
        0).calls.map Prod.fst = [true, false, true, false].take (k + 1) ∧
      (initialiseNetwork (fun (p : Bool) (n : Nat) => (p, n + 1)) [true, false, true, false]
        0).calls.map Prod.snd = List.replicate k true ++ [false] :=
  ⟨rfl, rfl,
    (initialiseNetwork_fail_fast (fun (p : Bool) (n : Nat) => (p, n + 1))
      [true, false, true, false] 0).1.2.1 rfl⟩

theorem VectorXd.assign_middle {α : Type} (pre post : List α) (m x : α) (mid : List α) :
    VectorXd.assign (pre ++ (m :: mid) ++ post) pre.length x = some (pre ++ (x :: mid) ++ post) := by
  unfold VectorXd.assign
  rw [if_pos (by simp)]
  congr 1
  induction pre with
  | nil => rfl
  | cons a pre ih => simp

/-- The readback loop fills the coefficients `i .. i + N - 1` of the local vector, one per joint,
and leaves the others; it always has a result. -/
theorem getLoop_fills (jointGet : Ptr → W → R × W) :
    ∀ (joints : List Ptr) (pre mid post : List R) (w : W), mid.length = joints.length →
      ∃ (vals : List R) (w' : W),
        getLoop jointGet joints pre.length (pre ++ mid ++ post) w = some (pre ++ vals ++ post, w') ∧
        vals.length = joints.length := by
  intro joints
  induction joints with
  | nil =>
    intro pre mid post w h
    have hm : mid = [] := List.length_eq_zero.mp h
    exact ⟨[], w, by simp [getLoop, hm], rfl⟩
  | cons p rest ih =>
    intro pre mid post w h
    cases mid with
    | nil => simp at h
    | cons m mid =>
      obtain ⟨vals, w', hv, hl⟩ := ih (pre ++ [(jointGet p w).1]) mid post (jointGet p w).2
        (by simpa using h)
      refine ⟨(jointGet p w).1 :: vals, w', ?_, by simp [hl]⟩
      simp only [getLoop, VectorXd.assign_middle, Option.some_bind]
      have e : pre ++ (jointGet p w).1 :: mid ++ post = pre ++ [(jointGet p w).1] ++ mid ++ post := by
        simp
      have e' : pre.length + 1 = (pre ++ [(jointGet p w).1]).length := by simp
      rw [e, e', hv]
      simp

/-- With a joint getter that writes nothing, the readback loop leaves the outside state as it was
and the coefficients it fills are the joints' readings in that state. -/
theorem getLoop_read_only (jointGet : Ptr → W → R × W) (hread : ∀ p w, (jointGet p w).2 = w) :
    ∀ (joints : List Ptr) (pre mid post : List R) (w : W), mid.length = joints.length →
      getLoop jointGet joints pre.length (pre ++ mid ++ post) w
        = some (pre ++ joints.map (fun p => (jointGet p w).1) ++ post, w) := by
  intro joints
  induction joints with
  | nil =>
    intro pre mid post w h
    have hm : mid = [] := List.length_eq_zero.mp h
    simp [getLoop, hm]
  | cons p rest ih =>
    intro pre mid post w h
    cases mid with
    | nil => simp at h
    | cons m mid =>
      have hv := ih (pre ++ [(jointGet p w).1]) mid post w (by simpa using h)
      simp only [getLoop, VectorXd.assign_middle, Option.some_bind, hread]
      have e : pre ++ (jointGet p w).1 :: mid ++ post = pre ++ [(jointGet p w).1] ++ mid ++ post := by
        simp
      have e' : pre.length + 1 = (pre ++ [(jointGet p w).1]).length := by simp
      rw [e, e', hv]
      simp

theorem getLoop_start (jointGet : Ptr → W → R × W) (uninitialised : Nat → R) (joints : List Ptr)
    (w : W) :
    (∃ (vals : List R) (w' : W),
      getLoop jointGet joints 0 ((List.range joints.length).map uninitialised) w = some (vals, w') ∧
      vals.length = joints.length) ∧
    ((∀ p u, (jointGet p u).2 = u) →
      getLoop jointGet joints 0 ((List.range joints.length).map uninitialised) w
        = some (joints.map (fun p => (jointGet p w).1), w)) := by
  constructor
  · have h := getLoop_fills jointGet joints [] ((List.range joints.length).map uninitialised) [] w
      (by simp)
    simpa using h
  · intro hread
    have h := getLoop_read_only jointGet hread joints []
      ((List.range joints.length).map uninitialised) [] w (by simp)
    simpa using h

/-- Claim C13. `getPosition`, `getVelocity` and `getTorque` always return a vector with exactly one
coefficient per joint, whatever the state of the joints. When the joint getters write nothing, the
`i`-th coefficient is joint `i`'s own reading, the outside state is left as it was, and a second
read right after returns the same vector. -/
theorem readback_one_value_per_joint (jr : JointReadback Ptr W R) (uninitialised : Nat → R)
    (joints : List Ptr) (w : W) :
    ((∃ (vals : List R) (w' : W),
        getPosition jr uninitialised joints w = some (vals, w') ∧ vals.length = joints.length) ∧
      (∃ (vals : List R) (w' : W),
        getVelocity jr uninitialised joints w = some (vals, w') ∧ vals.length = joints.length) ∧
      (∃ (vals : List R) (w' : W),
        getTorque jr uninitialised joints w = some (vals, w') ∧ vals.length = joints.length)) ∧
    ((∀ p u, (jr.getPosition p u).2 = u) →
      getPosition jr uninitialised joints w
        = some (joints.map (fun p => (jr.getPosition p w).1), w) ∧
      (getPosition jr uninitialised joints w).bind
          (fun r => getPosition jr uninitialised joints r.2)
        = getPosition jr uninitialised joints w) ∧
    ((∀ p u, (jr.getVelocity p u).2 = u) →
      getVelocity jr uninitialised joints w
        = some (joints.map (fun p => (jr.getVelocity p w).1), w) ∧
      (getVelocity jr uninitialised joints w).bind
          (fun r => getVelocity jr uninitialised joints r.2)
        = getVelocity jr uninitialised joints w) ∧
    ((∀ p u, (jr.getTorque p u).2 = u) →
      getTorque jr uninitialised joints w
        = some (joints.map (fun p => (jr.getTorque p w).1), w) ∧
      (getTorque jr uninitialised joints w).bind
          (fun r => getTorque jr uninitialised joints r.2)
        = getTorque jr uninitialised joints w) := by
  refine ⟨⟨(getLoop_start jr.getPosition uninitialised joints w).1,
    (getLoop_start jr.getVelocity uninitialised joints w).1,
    (getLoop_start jr.getTorque uninitialised joints w).1⟩, ?_, ?_, ?_⟩
  · intro h
    have e := (getLoop_start jr.getPosition uninitialised joints w).2 h
    exact ⟨e, by simp only [getPosition] at e ⊢; rw [e]; simpa using e⟩
  · intro h
    have e := (getLoop_start jr.getVelocity uninitialised joints w).2 h
    exact ⟨e, by simp only [getVelocity] at e ⊢; rw [e]; simpa using e⟩
  · intro h
    have e := (getLoop_start jr.getTorque uninitialised joints w).2 h
    exact ⟨e, by simp only [getTorque] at e ⊢; rw [e]; simpa using e⟩

/-- Witness of claim C13: three joints at positions `1/2`, `-1`, `3`; the read returns these three
values in joint order and leaves the outside state as it was. -/
theorem readback_one_value_per_joint_witness :
    (∀ p u, (stubReadback.getPosition p u).2 = u) ∧
    getPosition stubReadback (fun _ => 99) [0, 1, 2] [1 / 2, -1, 3]
      = some ([1 / 2, -1, 3], [1 / 2, -1, 3]) := by
  have hread : ∀ p u, (stubReadback.getPosition p u).2 = u := fun _ _ => rfl
  refine ⟨hread, ?_⟩
  rw [((readback_one_value_per_joint stubReadback (fun _ => 99) [0, 1, 2]
    [1 / 2, -1, 3]).2.1 hread).1]
  rfl

/-- The construction loop in closed form, started at iteration `id` on a robot that holds `id`
drive addresses: iteration `id + k` creates the drive with node id `id + k + 1` at a new address
and the joint `id + k` bound to that address. -/
theorem initialiseJointsLoop_spec (jointMinMap jointMaxMap : Int → R) :
    ∀ (remaining id : Nat) (m : Members R), m.copleyDrives.length = id →
      initialiseJointsLoop jointMinMap jointMaxMap remaining id m = some
        { driveObjects := m.driveObjects ++
            (List.range remaining).map (fun k => (⟨((id + k : Nat) : Int) + 1⟩ : CopleyDrive)),
          copleyDrives := m.copleyDrives ++
            (List.range remaining).map (fun k => m.driveObjects.length + k),
          joints := m.joints ++
            (List.range remaining).map (fun k =>
              (⟨((id + k : Nat) : Int), jointMinMap ((id + k : Nat) : Int),
                jointMaxMap ((id + k : Nat) : Int), m.driveObjects.length + k⟩ : DummyActJoint R)),
          inputs := m.inputs } := by
  intro remaining
  induction remaining with
  | zero => intro id m _; simp [initialiseJointsLoop]
  | succ n ih =>
    intro id m hlen
    have hget : (m.copleyDrives ++ [m.driveObjects.length])[id]? = some m.driveObjects.length := by
      rw [← hlen]
      simp
    simp only [initialiseJointsLoop, hget]
    rw [ih (id + 1) _ (by simp [hlen])]
    simp [List.range_succ_eq_map, Function.comp]
    have e : ∀ a : Nat, (id : Int) + 1 + (a : Int) = (id : Int) + ((a : Int) + 1) := by
      intro a
      omega
    refine ⟨fun a _ => e a, fun a _ => by omega, fun a _ => ⟨e a, ?_, ?_, by omega⟩⟩
    · rw [e a]
    · rw [e a]

/-- Claim C14. On a robot that holds no joints and no drives, `initialiseJoints` returns true and
leaves exactly `NUM_JOINTS` joints and `NUM_JOINTS` drives; joint `i` has id `i`, limits
`jointMinMap[i]` and `jointMaxMap[i]`, and is bound to the drive stored at index `i`, whose node id
is `i + 1`; the joints are bound to pairwise different drives. -/
theorem initialiseJoints_builds (NUM_JOINTS : Nat) (jointMinMap jointMaxMap : Int → R)
    (m : Members R) (hj : m.joints = []) (hd : m.copleyDrives = []) :
    ∃ m', initialiseJoints NUM_JOINTS jointMinMap jointMaxMap m = some (true, m') ∧
      m'.joints.length = NUM_JOINTS ∧ m'.copleyDrives.length = NUM_JOINTS ∧
      (∀ i, i < NUM_JOINTS → ∃ d,
        m'.copleyDrives[i]? = some d ∧
        m'.joints[i]? = some ⟨(i : Int), jointMinMap i, jointMaxMap i, d⟩ ∧
        m'.driveObjects[d]? = some ⟨(i : Int) + 1⟩) ∧
      (m'.joints.map (fun j => j.drive)).Nodup ∧
      m'.inputs = m.inputs := by
  have h := initialiseJointsLoop_spec jointMinMap jointMaxMap NUM_JOINTS 0 m (by simp [hd])
  simp only [initialiseJoints, h, Option.map_some']
  refine ⟨_, rfl, ?_, ?_, ?_, ?_, rfl⟩
  · simp [hj]
  · simp [hd]
  · intro i hi
    refine ⟨m.driveObjects.length + i, ?_, ?_, ?_⟩
    · simp [hd, hi]
    · simp [hj, hi]
    · rw [List.getElem?_append_right (by omega)]
      simp [hi]
  · simp only [hj, List.nil_append, List.map_map]
    apply List.Nodup.map _ (List.nodup_range _)
    intro a b hab
    simpa [Function.comp] using hab

/-- Witness of claim C14: four joints built on a robot that holds nothing, while two drive objects
of someone else are in memory at addresses 0 and 1. Joint 2 is bound to the drive at address 4,
whose node id is 3. -/
theorem initialiseJoints_builds_witness :
    emptyMembers.joints = [] ∧ emptyMembers.copleyDrives = [] ∧
    ∃ m', initialiseJoints 4 (fun i => -(i : ℚ)) (fun i => (i : ℚ)) emptyMembers = some (true, m') ∧
      m'.copleyDrives = [2, 3, 4, 5] ∧
      m'.joints[2]? = some ⟨2, -2, 2, 4⟩ ∧
      m'.driveObjects[4]? = some ⟨3⟩ := by
  obtain ⟨m', h, -, -, -, -, -⟩ :=
    initialiseJoints_builds 4 (fun i => -(i : ℚ)) (fun i => (i : ℚ)) emptyMembers rfl rfl
  refine ⟨rfl, rfl, m', h, ?_⟩
  have e : initialiseJoints 4 (fun i => -(i : ℚ)) (fun i => (i : ℚ)) emptyMembers
      = some (true, ⟨[⟨40⟩, ⟨41⟩, ⟨1⟩, ⟨2⟩, ⟨3⟩, ⟨4⟩], [2, 3, 4, 5],
          [⟨0, -0, 0, 2⟩, ⟨1, -1, 1, 3⟩, ⟨2, -2, 2, 4⟩, ⟨3, -3, 3, 5⟩], []⟩) := by
    simp [initialiseJoints, initialiseJointsLoop, emptyMembers]
  rw [e] at h
  cases h
  simp

theorem deleteAll_eq {α β : Type} (release : α → β) :
    ∀ (l : List α) (log : List β), deleteAll release l log = log ++ l.map release := by
  intro l
  induction l with
  | nil => intro log; simp [deleteAll]
  | cons p rest ih =>
    intro log
    simp only [deleteAll]
    rw [ih]
    simp

/-- Counterexample to claim C15: on a robot with one drive node, the joint bound to it and one
input, `freeMemory` releases the drive node first, then the joint, then the input; this is not the
order inputs, joints, drive nodes, and the drive node goes before the joint bound to it. -/
theorem freeMemory_releases_drives_first :
    freeMemory smallMembers
      = [Release.driveNode 0, Release.joint ⟨0, -1, 1, 0⟩, Release.input 7] ∧
    releaseOrderInputsJointsDrives smallMembers
      = [Release.input 7, Release.joint ⟨0, -1, 1, 0⟩, Release.driveNode 0] ∧
    freeMemory smallMembers ≠ releaseOrderInputsJointsDrives smallMembers := by
  refine ⟨rfl, rfl, ?_⟩
  intro h
  have h0 := congrArg List.head? h
  simp [freeMemory, deleteAll, releaseOrderInputsJointsDrives, smallMembers] at h0

/-- Claim C15 as amended. `freeMemory`, which the destructor runs, releases first every drive
node, then every joint, then every input, each collection in index order; so every drive node is
released before every joint. -/
theorem freeMemory_order (m : Members R) :
    freeMemory m = m.copleyDrives.map Release.driveNode ++ m.joints.map Release.joint
      ++ m.inputs.map Release.input ∧
    destructor m = freeMemory m := by
  refine ⟨?_, rfl⟩
  simp only [freeMemory, deleteAll_eq]
  simp

end ExoRobot

/-! ## X2DemoMachine -/

namespace X2DemoMachine

/-- Claim C16. When `initialised` is true, `end` does exactly `endLog`, `currentState->exit()`,
`robot->disable()`, the release of the ROS object and the release of the robot, in this order, so
the disable comes before any release; when `initialised` is false it does nothing: no step is
taken and the outside state is as before. -/
theorem end_sequence {W : Type} (c : Collaborators W) (w : W) :
    end_ c true w =
      (c.deleteRobot (c.deleteX2DemoMachineRos (c.robotDisable (c.currentStateExit (c.endLog w)))),
        [EndStep.endLog, EndStep.currentStateExit, EndStep.robotDisable,
          EndStep.deleteX2DemoMachineRos, EndStep.deleteRobot]) ∧
    end_ c false w = (w, []) :=
  ⟨rfl, rfl⟩

/-- A concrete run for claim C16 on the stand-in collaborators. -/
theorem end_sequence_sample :
    (end_ stubCollaborators true []).1
      = ["endLog", "exit", "disable", "delete ros", "delete robot"] ∧
    (end_ stubCollaborators false []).1 = [] :=
  ⟨rfl, rfl⟩

end X2DemoMachine

/-! ## RobotM3 -/

namespace RobotM3

open setMovementReturnCode_t

/-- Claim C17. On a calibrated robot `safetyCheck` returns `OUTSIDE_LIMITS` if and only if the
end-effector velocity exceeds `maxEndEffVel` or the end-effector force exceeds `maxEndEffForce`;
on a robot that is not calibrated it returns `OUTSIDE_LIMITS` if and only if some joint's velocity
or torque exceeds that joint's limit; otherwise it returns `SUCCESS`; it issues no command. -/
theorem safetyCheck_limits {R : Type} [LT R] [DecidableRel ((· < ·) : R → R → Prop)]
    (r : Readings R) :
    (r.calibrated = true →
      ((safetyCheck r).1 = OUTSIDE_LIMITS ↔
        (r.maxEndEffVel < r.endEffVelocity ∨ r.maxEndEffForce < r.endEffForce))) ∧
    (r.calibrated = false →
      ((safetyCheck r).1 = OUTSIDE_LIMITS ↔
        ∃ j ∈ r.joints, j.maxVelocity < j.velocity ∨ j.maxTorque < j.torque)) ∧
    ((safetyCheck r).1 ≠ OUTSIDE_LIMITS → (safetyCheck r).1 = SUCCESS) ∧
    (safetyCheck r).2 = [] := by
  refine ⟨?_, ?_, ?_, ?_⟩
  · intro hc
    unfold safetyCheck
    rw [if_pos hc]
    split <;> simp_all
  · intro hc
    unfold safetyCheck
    rw [if_neg (by simp [hc])]
    split
    · rename_i h
      simp only [List.any_eq_true, decide_eq_true_eq] at h
      simpa using h
    · rename_i h
      simp only [List.any_eq_true, decide_eq_true_eq] at h
      simpa using h
  · unfold safetyCheck
    split <;> split <;> simp
  · unfold safetyCheck
    split <;> split <;> rfl

/-- Witness of claim C17, the scenario of the specification: not calibrated and one joint's torque
(6) over its limit (5) gives `OUTSIDE_LIMITS`; all joints within limits gives `SUCCESS`. -/
theorem safetyCheck_limits_witness :
    sampleUncalibrated.calibrated = false ∧
    (safetyCheck sampleUncalibrated).1 = OUTSIDE_LIMITS ∧
    (safetyCheck sampleWithinLimits).1 = SUCCESS := by
  refine ⟨rfl, ?_, ?_⟩
  · refine ((safetyCheck_limits sampleUncalibrated).2.1 rfl).mpr ⟨⟨0, 2, 6, 5⟩, ?_, ?_⟩
    · simp [sampleUncalibrated]
    · right
      norm_num
  · apply (safetyCheck_limits sampleWithinLimits).2.2.1
    intro h
    obtain ⟨j, hj, hlim⟩ := ((safetyCheck_limits sampleWithinLimits).2.1 rfl).mp h
    simp only [sampleWithinLimits, List.mem_cons, List.mem_singleton, List.not_mem_nil,
      or_false] at hj
    rcases hj with rfl | rfl | rfl <;> norm_num at hlim

end RobotM3

/-! ## RobotousRFT: sequences of calls -/

namespace RobotousRFT

variable {R : Type}

/-- `updateInput` writes neither the streaming flag nor the command slot. -/
theorem updateInput_keeps_slot [IntCast R] [Sub R] [Div R] (s s' : RobotousRFT R)
    (h : updateInput s = some s') :
    s'.streaming = s.streaming ∧ s'.cmdData = s.cmdData := by
  unfold updateInput at h
  by_cases hop : s.rawData 0 = 0x0B
  · rw [if_pos hop] at h
    dsimp only at h
    iterate 12 (obtain ⟨_, -, h⟩ := Option.bind_eq_some.mp h)
    cases h
    exact ⟨rfl, rfl⟩
  · rw [if_neg hop] at h
    cases h
    exact ⟨rfl, rfl⟩

/-- One call keeps the agreement of command slot and streaming flag, and a call that returns true
establishes it. -/
theorem step_slot [IntCast R] [Sub R] [Div R] [Zero R] (c : Call R) (s s' : RobotousRFT R)
    (r : Option Bool) (h : step c s = some (r, s')) :
    (((s.streaming = true ∧ s.cmdData = 0x0B) ∨ (s.streaming = false ∧ s.cmdData = 0x0C)) ∨
        successes [(c, r)] ≠ []) →
      ((s'.streaming = true ∧ s'.cmdData = 0x0B) ∨ (s'.streaming = false ∧ s'.cmdData = 0x0C)) := by
  cases c with
  | startStream =>
    simp only [step, Option.some.injEq, Prod.mk.injEq] at h
    obtain ⟨rfl, rfl⟩ := h
    cases hs : s.streaming <;> simp [startStream, hs, successes]
  | stopStream =>
    simp only [step, Option.some.injEq, Prod.mk.injEq] at h
    obtain ⟨rfl, rfl⟩ := h
    cases hs : s.streaming <;> simp [stopStream, hs, successes]
  | updateInput =>
    simp only [step, Option.map_eq_some', Prod.mk.injEq] at h
    obtain ⟨s1, h1, rfl, rfl⟩ := h
    obtain ⟨e1, e2⟩ := updateInput_keeps_slot s s1 h1
    simp [e1, e2, successes]
  | setOffsets f t =>
    simp only [step, Option.some.injEq, Prod.mk.injEq] at h
    obtain ⟨rfl, rfl⟩ := h
    simp [setOffsets, successes]

/-- What one call does to the streaming flag and to the list of successful calls. -/
theorem step_successes [IntCast R] [Sub R] [Div R] [Zero R] (c : Call R) (s s' : RobotousRFT R)
    (r : Option Bool) (h : step c s = some (r, s')) :
    (successes [(c, r)] = [] ∧ s'.streaming = s.streaming) ∨
    (successes [(c, r)] = [!s.streaming] ∧ s'.streaming = !s.streaming) := by
  cases c with
  | startStream =>
    simp only [step, Option.some.injEq, Prod.mk.injEq] at h
    obtain ⟨rfl, rfl⟩ := h
    cases hs : s.streaming <;> simp [startStream, hs, successes]
  | stopStream =>
    simp only [step, Option.some.injEq, Prod.mk.injEq] at h
    obtain ⟨rfl, rfl⟩ := h
    cases hs : s.streaming <;> simp [stopStream, hs, successes]
  | updateInput =>
    simp only [step, Option.map_eq_some', Prod.mk.injEq] at h
    obtain ⟨s1, h1, rfl, rfl⟩ := h
    exact Or.inl ⟨rfl, (updateInput_keeps_slot s s1 h1).1⟩
  | setOffsets f t =>
    simp only [step, Option.some.injEq, Prod.mk.injEq] at h
    obtain ⟨rfl, rfl⟩ := h
    exact Or.inl ⟨rfl, rfl⟩

theorem successes_cons (e : Call R × Option Bool) (log : List (Call R × Option Bool)) :
    successes (e :: log) = successes [e] ++ successes log := by
  obtain ⟨c, r⟩ := e
  cases c <;> (try rfl) <;> rcases r with _ | _ | _ <;> rfl

theorem run_cons_some [IntCast R] [Sub R] [Div R] [Zero R] (c : Call R) (rest : List (Call R))
    (s s' : RobotousRFT R) (log : List (Call R × Option Bool))
    (h : run (c :: rest) s = some (log, s')) :
    ∃ r s1 log1, step c s = some (r, s1) ∧ run rest s1 = some (log1, s') ∧
      log = (c, r) :: log1 := by
  simp only [run, Option.bind_eq_some, Option.map_eq_some', Prod.mk.injEq] at h
  obtain ⟨⟨r, s1⟩, hstep, ⟨log1, s2⟩, hrun, hlog, hs⟩ := h
  subst hs
  exact ⟨r, s1, log1, hstep, hrun, hlog.symm⟩

/-- Along a sequence of calls the command slot agrees with the streaming flag at the end as soon
as it agreed at the start or one of the calls returned true. -/
theorem run_slot [IntCast R] [Sub R] [Div R] [Zero R] :
    ∀ (calls : List (Call R)) (s s' : RobotousRFT R) (log : List (Call R × Option Bool)),
      run calls s = some (log, s') →
      (((s.streaming = true ∧ s.cmdData = 0x0B) ∨ (s.streaming = false ∧ s.cmdData = 0x0C)) ∨
        successes log ≠ []) →
      ((s'.streaming = true ∧ s'.cmdData = 0x0B) ∨ (s'.streaming = false ∧ s'.cmdData = 0x0C)) := by
  intro calls
  induction calls with
  | nil =>
    intro s s' log h hpre
    simp only [run, Option.some.injEq, Prod.mk.injEq] at h
    obtain ⟨rfl, rfl⟩ := h
    rcases hpre with hpre | hpre
    · exact hpre
    · exact absurd rfl hpre
  | cons c rest ih =>
    intro s s' log h hpre
    obtain ⟨r, s1, log1, hstep, hrun, rfl⟩ := run_cons_some c rest s s' log h
    apply ih s1 s' log1 hrun
    rw [successes_cons] at hpre
    by_cases hone : successes [(c, r)] = []
    · rcases hpre with hpre | hpre
      · exact Or.inl (step_slot c s s1 r hstep (Or.inl hpre))
      · right
        simpa [hone] using hpre
    · exact Or.inl (step_slot c s s1 r hstep (Or.inr hone))

/-- Along a sequence of calls the calls that return true alternate, the first being a start when
the sensor is not streaming at the start and a stop when it is. -/
theorem run_successes [IntCast R] [Sub R] [Div R] [Zero R] :
    ∀ (calls : List (Call R)) (s s' : RobotousRFT R) (log : List (Call R × Option Bool)),
      run calls s = some (log, s') →
      successes log = List.iterate (fun b => !b) (!s.streaming) (successes log).length := by
  intro calls
  induction calls with
  | nil =>
    intro s s' log h
    simp only [run, Option.some.injEq, Prod.mk.injEq] at h
    obtain ⟨rfl, rfl⟩ := h
    rfl
  | cons c rest ih =>
    intro s s' log h
    obtain ⟨r, s1, log1, hstep, hrun, rfl⟩ := run_cons_some c rest s s' log h
    have h1 := ih s1 s' log1 hrun
    rw [successes_cons]
    rcases step_successes c s s1 r hstep with ⟨hnone, hflag⟩ | ⟨hone, hflag⟩
    · rw [hnone, List.nil_append, ← hflag]
      exact h1
    · rw [hone, List.singleton_append, List.length_cons, List.iterate]
      rw [hflag] at h1
      exact congrArg _ h1

/-- Claim C18. Start from a sensor that is not streaming and make any sequence of `startStream`,
`stopStream`, `updateInput` and `setOffsets` calls. If one of the calls returned true, then at the
end `cmdData = 0x0B` exactly when `streaming` is true and `cmdData = 0x0C` exactly when
`streaming` is false. The calls that returned true are, in order, start, stop, start, ... -/
theorem command_slot_invariant [IntCast R] [Sub R] [Div R] [Zero R] (s : RobotousRFT R)
    (hs : s.streaming = false) (calls : List (Call R)) (log : List (Call R × Option Bool))
    (s' : RobotousRFT R) (hrun : run calls s = some (log, s')) :
    (successes log ≠ [] →
      (s'.streaming = true ↔ s'.cmdData = 0x0B) ∧ (s'.streaming = false ↔ s'.cmdData = 0x0C)) ∧
    successes log = List.iterate (fun b => !b) true (successes log).length := by
  constructor
  · intro hsucc
    rcases run_slot calls s s' log hrun (Or.inr hsucc) with ⟨h1, h2⟩ | ⟨h1, h2⟩
    · simp [h1, h2]
    · simp [h1, h2]
  · have h := run_successes calls s s' log hrun
    rw [hs] at h
    exact h

/-- Witness of claim C18: seven calls on the idle sample, whose command slot holds 0 at the start;
the calls that return true are start, stop, start, and the slot ends at `0x0B` with streaming
true. -/
theorem command_slot_invariant_witness :
    sampleIdle.streaming = false ∧
    (run sampleCalls sampleIdle).map (fun t => (successes t.1, t.2.streaming, t.2.cmdData))
      = some ([true, false, true], true, 0x0B) ∧
    ∀ log s', run sampleCalls sampleIdle = some (log, s') →
      (s'.streaming = true ↔ s'.cmdData = 0x0B) ∧ (s'.streaming = false ↔ s'.cmdData = 0x0C) := by
  have hval : (run sampleCalls sampleIdle).map
      (fun t => (successes t.1, t.2.streaming, t.2.cmdData))
      = some ([true, false, true], true, 0x0B) := rfl
  refine ⟨rfl, hval, ?_⟩
  intro log s' h
  rw [h] at hval
  simp only [Option.map_some', Option.some.injEq, Prod.mk.injEq] at hval
  exact (command_slot_invariant sampleIdle rfl sampleCalls log s' h).1 (by simp [hval.1])

end RobotousRFT

/-! ## State -/

namespace State

variable {S F : Type}

end State

/-! ## ExoRobot: the code returned by the set functions -/

namespace ExoRobot

open setMovementReturnCode_t ControlMode

variable {Ptr W R P : Type}

theorem foldl_nextReturnValue_all_success (calls : List (SetCall Ptr R))
    (h : ∀ c ∈ calls, c.code = SUCCESS) (rv : setMovementReturnCode_t) :
    calls.foldl (fun a c => nextReturnValue a c.code) rv = rv := by
  induction calls generalizing rv with
  | nil => rfl
  | cons c rest ih =>
    rw [List.foldl_cons, ih (fun d hd => h d (List.mem_cons_of_mem _ hd))]
    simp [nextReturnValue, h c (List.mem_cons_self _ _)]

/-- The fold of `nextReturnValue` ends on the reading of the last code that is not `SUCCESS`. -/
theorem foldl_nextReturnValue_last_failure (before after : List (SetCall Ptr R))
    (c : SetCall Ptr R) (hc : c.code ≠ SUCCESS) (hafter : ∀ d ∈ after, d.code = SUCCESS)
    (rv : setMovementReturnCode_t) :
    (before ++ c :: after).foldl (fun a c => nextReturnValue a c.code) rv
      = if c.code = INCORRECT_MODE then INCORRECT_MODE else UNKNOWN_ERROR := by
  rw [List.foldl_append, List.foldl_cons, foldl_nextReturnValue_all_success after hafter]
  unfold nextReturnValue
  by_cases h : c.code = INCORRECT_MODE
  · simp [h]
  · simp [h, hc]

/-- Claim C20. When the argument vector has one coefficient per joint and some joint returns a
code other than `SUCCESS`, the code returned by `setPosition`, `setVelocity` and `setTorque` is
fixed by the last such joint: `INCORRECT_MODE` if that joint returned `INCORRECT_MODE`,
`UNKNOWN_ERROR` otherwise. The codes of the recorded calls are the codes the joint functions
returned, each in the outside state left by the calls before it. -/
theorem set_returns_last_failure (hw : Hardware Ptr W R P) (joints : List Ptr) (v : List R)
    (w : W) (hlen : v.length = joints.length) :
    (∀ out ∈ [setPosition hw joints v w, setVelocity hw joints v w, setTorque hw joints v w],
      ∀ (before after : List (SetCall Ptr R)) (c : SetCall Ptr R),
        out.calls = before ++ c :: after → c.code ≠ SUCCESS →
        (∀ d ∈ after, d.code = SUCCESS) →
        out.returned = some (if c.code = INCORRECT_MODE then INCORRECT_MODE else UNKNOWN_ERROR)) ∧
    CodesFromHardware hw.setPosition w (setPosition hw joints v w).calls ∧
    CodesFromHardware hw.setVelocity w (setVelocity hw joints v w).calls ∧
    CodesFromHardware hw.setTorque w (setTorque hw joints v w).calls := by
  refine ⟨?_, setLoop_start_codes hw.setPosition v joints w,
    setLoop_start_codes hw.setVelocity v joints w, setLoop_start_codes hw.setTorque v joints w⟩
  have key : ∀ jointSet : Ptr → R → W → setMovementReturnCode_t × W,
      ∀ (before after : List (SetCall Ptr R)) (c : SetCall Ptr R),
        (setLoop jointSet v joints 0 SUCCESS w []).calls = before ++ c :: after →
        c.code ≠ SUCCESS → (∀ d ∈ after, d.code = SUCCESS) →
        (setLoop jointSet v joints 0 SUCCESS w []).returned
          = some (if c.code = INCORRECT_MODE then INCORRECT_MODE else UNKNOWN_ERROR) := by
    intro jointSet before after c hcalls hc hafter
    obtain ⟨-, hr⟩ := setLoop_start jointSet v joints w
    rw [if_pos (by omega), hcalls,
      foldl_nextReturnValue_last_failure before after c hc hafter] at hr
    exact hr
  intro out hout
  simp only [List.mem_cons, List.mem_singleton, List.not_mem_nil, or_false] at hout
  rcases hout with rfl | rfl | rfl
  · exact key hw.setPosition
  · exact key hw.setVelocity
  · exact key hw.setTorque

/-- Witness of claim C20: joints answering `UNKNOWN_ERROR`, `INCORRECT_MODE`, `SUCCESS` give
`INCORRECT_MODE`, the code of the second joint, the last one that failed. The other evaluations:
`INCORRECT_MODE` then `UNKNOWN_ERROR` gives `UNKNOWN_ERROR`, `OUTSIDE_LIMITS` alone gives
`UNKNOWN_ERROR`, and two joints answering `INCORRECT_MODE` give `INCORRECT_MODE`. -/
theorem set_returns_last_failure_witness :
    ([0, 0, 0] : List ℚ).length
      = [(⟨UNKNOWN_ERROR, true⟩ : StubJoint), ⟨INCORRECT_MODE, true⟩, ⟨SUCCESS, true⟩].length ∧
    (setVelocity stubHardware [⟨UNKNOWN_ERROR, true⟩, ⟨INCORRECT_MODE, true⟩, ⟨SUCCESS, true⟩]
      [0, 0, 0] 0).returned = some INCORRECT_MODE ∧
    (setVelocity stubHardware [⟨INCORRECT_MODE, true⟩, ⟨UNKNOWN_ERROR, true⟩] [0, 0] 0).returned
      = some UNKNOWN_ERROR ∧
    (setVelocity stubHardware [⟨OUTSIDE_LIMITS, true⟩] [0] 0).returned = some UNKNOWN_ERROR ∧
    (setVelocity stubHardware [⟨INCORRECT_MODE, true⟩, ⟨INCORRECT_MODE, true⟩] [0, 0] 0).returned
      = some INCORRECT_MODE := by
  refine ⟨rfl, ?_, rfl, rfl, rfl⟩
  exact (set_returns_last_failure stubHardware
    [⟨UNKNOWN_ERROR, true⟩, ⟨INCORRECT_MODE, true⟩, ⟨SUCCESS, true⟩] [0, 0, 0] 0 rfl).1
    (setVelocity stubHardware [⟨UNKNOWN_ERROR, true⟩, ⟨INCORRECT_MODE, true⟩, ⟨SUCCESS, true⟩]
      [0, 0, 0] 0)
    (List.mem_cons_of_mem _ (List.mem_cons_self _ _))
    [⟨⟨UNKNOWN_ERROR, true⟩, 0, UNKNOWN_ERROR⟩] [⟨⟨SUCCESS, true⟩, 0, SUCCESS⟩]
    ⟨⟨INCORRECT_MODE, true⟩, 0, INCORRECT_MODE⟩ rfl (by decide)
    (by intro d hd; rw [List.mem_singleton.mp hd])

end ExoRobot

/-! ## RobotousRFT: decoding and the streaming flag -/

namespace RobotousRFT

variable {R : Type}

/-- The coefficients `updateInput` writes on a streaming frame, in the terms of the source: the
two bytes stored as an `UNSIGNED16`, cast to `INTEGER16`, divided by the scale, minus the
offset. -/
theorem updateInput_coefficients [IntCast R] [Sub R] [Div R] (s : RobotousRFT R)
    (hop : s.rawData 0 = 0x0B) (hf : 3 ≤ s.forces.length) (ht : 3 ≤ s.torques.length)
    (hfo : 3 ≤ s.forceOffsets.length) (hto : 3 ≤ s.torqueOffsets.length) :
    ∃ s', updateInput s = some s' ∧
      ∀ i, i < 3 →
        s'.forces[i]? = (s.forceOffsets[i]?).map (fun o =>
          ((toINTEGER16 (toUNSIGNED16 (s.rawData (1 + 2 * i) * 256 + s.rawData (2 + 2 * i))) : Int) : R)
            / ((50 : Int) : R) - o) ∧
        s'.torques[i]? = (s.torqueOffsets[i]?).map (fun o =>
          ((toINTEGER16 (toUNSIGNED16 (s.rawData (7 + 2 * i) * 256 + s.rawData (8 + 2 * i))) : Int) : R)
            / ((2000 : Int) : R) - o) := by
  obtain ⟨f0, f1, f2, fr, hF⟩ := List.exists_three_of_le_length _ hf
  obtain ⟨t0, t1, t2, tr, hT⟩ := List.exists_three_of_le_length _ ht
  obtain ⟨o0, o1, o2, orest, hO⟩ := List.exists_three_of_le_length _ hfo
  obtain ⟨q0, q1, q2, qrest, hQ⟩ := List.exists_three_of_le_length _ hto
  have hres : updateInput s = some { s with
      forces :=
        (((toINTEGER16 (toUNSIGNED16 (s.rawData 1 * 256 + s.rawData 2)) : Int) : R) / ((50 : Int) : R) - o0) ::
        (((toINTEGER16 (toUNSIGNED16 (s.rawData 3 * 256 + s.rawData 4)) : Int) : R) / ((50 : Int) : R) - o1) ::
        (((toINTEGER16 (toUNSIGNED16 (s.rawData 5 * 256 + s.rawData 6)) : Int) : R) / ((50 : Int) : R) - o2) :: fr,
      torques :=
        (((toINTEGER16 (toUNSIGNED16 (s.rawData 7 * 256 + s.rawData 8)) : Int) : R) / ((2000 : Int) : R) - q0) ::
        (((toINTEGER16 (toUNSIGNED16 (s.rawData 9 * 256 + s.rawData 10)) : Int) : R) / ((2000 : Int) : R) - q1) ::
        (((toINTEGER16 (toUNSIGNED16 (s.rawData 11 * 256 + s.rawData 12)) : Int) : R) / ((2000 : Int) : R) - q2) :: tr } := by
    simp [updateInput, hop, hF, hT, hO, hQ, VectorXd.coeff, VectorXd.assign]
  refine ⟨_, hres, ?_⟩
  intro i hi
  interval_cases i <;> simp [hO, hQ]

theorem Option.bind_eq_map_bind {α β γ : Type} (o : Option α) (f : α → Option β)
    (g : α → Option γ) (h : γ → β) (H : ∀ a, f a = (g a).map h) :
    o.bind f = (o.bind g).map h := by
  cases o with
  | none => rfl
  | some a => simpa using H a

/-- The streaming flag is not read by `updateInput`: with the flag set to any value the call does
what it does otherwise, and hands the flag on. -/
theorem updateInput_with_streaming [IntCast R] [Sub R] [Div R] (s : RobotousRFT R) (b : Bool) :
    updateInput { s with streaming := b }
      = (updateInput s).map (fun s' => { s' with streaming := b }) := by
  unfold updateInput
  by_cases hop : s.rawData 0 = 0x0B
  · rw [if_pos hop, if_pos (show ({ s with streaming := b } : RobotousRFT R).rawData 0 = 0x0B from hop)]
    dsimp only
    iterate 12 (apply Option.bind_eq_map_bind; intro _)
    rfl
  · rw [if_neg hop, if_neg (show ¬ ({ s with streaming := b } : RobotousRFT R).rawData 0 = 0x0B from hop)]
    rfl

/-- Claim C21. `updateInput` does not look at the streaming flag: on two sensors that differ only
in that flag it produces the same forces and torques, for every receive buffer. In particular,
after a `stopStream` that returned true and zeroed the vectors, an `updateInput` on a buffer that
still holds a `0x0B` frame returns and writes the decoded values of that frame over the zeros. -/
theorem updateInput_ignores_streaming [IntCast R] [Sub R] [Div R] [Zero R] (s : RobotousRFT R)
    (b : Bool) :
    (updateInput { s with streaming := b }).map (fun s' => (s'.forces, s'.torques))
      = (updateInput s).map (fun s' => (s'.forces, s'.torques)) ∧
    (s.streaming = true → s.rawData 0 = 0x0B →
      3 ≤ s.forceOffsets.length → 3 ≤ s.torqueOffsets.length →
      (stopStream s).1 = true ∧
      (stopStream s).2.forces = [0, 0, 0] ∧ (stopStream s).2.torques = [0, 0, 0] ∧
      ∃ s', updateInput (stopStream s).2 = some s' ∧
        ∀ i, i < 3 →
          s'.forces[i]? = (s.forceOffsets[i]?).map (fun o =>
            ((toINTEGER16 (toUNSIGNED16 (s.rawData (1 + 2 * i) * 256 + s.rawData (2 + 2 * i)))
              : Int) : R) / ((50 : Int) : R) - o) ∧
          s'.torques[i]? = (s.torqueOffsets[i]?).map (fun o =>
            ((toINTEGER16 (toUNSIGNED16 (s.rawData (7 + 2 * i) * 256 + s.rawData (8 + 2 * i)))
              : Int) : R) / ((2000 : Int) : R) - o)) := by
  constructor
  · rw [updateInput_with_streaming]
    cases updateInput s <;> rfl
  · intro hs hop hfo hto
    have h2 : (stopStream s).2.forces = [0, 0, 0] := by
      simp [stopStream, hs, VectorXd.Zero]
    have h3 : (stopStream s).2.torques = [0, 0, 0] := by
      simp [stopStream, hs, VectorXd.Zero]
    have hraw : (stopStream s).2.rawData = s.rawData := by simp [stopStream, hs]
    have hfoff : (stopStream s).2.forceOffsets = s.forceOffsets := by simp [stopStream, hs]
    have htoff : (stopStream s).2.torqueOffsets = s.torqueOffsets := by simp [stopStream, hs]
    refine ⟨by simp [stopStream, hs], h2, h3, ?_⟩
    obtain ⟨s', hs', hv⟩ := updateInput_coefficients (stopStream s).2 (by rw [hraw]; exact hop)
      (by rw [h2]; simp) (by rw [h3]; simp) (by rw [hfoff]; exact hfo)
      (by rw [htoff]; exact hto)
    rw [hraw, hfoff, htoff] at hv
    exact ⟨s', hs', hv⟩

/-- Witness of claim C21: the streaming sample is stopped, which zeroes the forces; its buffer
still holds the frame with `Fx = 2500`, and the next `updateInput` sets `forces[0]` to
`2500 / 50 - 1 = 49`. The same sample with the flag cleared by hand decodes to the same vectors. -/
theorem updateInput_ignores_streaming_witness :
    sampleStreaming.streaming = true ∧ sampleStreaming.rawData 0 = 0x0B ∧
    (stopStream sampleStreaming).2.forces = [0, 0, 0] ∧
    (∃ s', updateInput (stopStream sampleStreaming).2 = some s' ∧
      s'.forces[0]? = some ((49 : ℚ)) ∧ s'.torques[0]? = some ((1 / 2 : ℚ))) ∧
    (updateInput { sampleStreaming with streaming := false }).map (fun s' => (s'.forces, s'.torques))
      = (updateInput sampleStreaming).map (fun s' => (s'.forces, s'.torques)) := by
  obtain ⟨-, hf0, -, s', hs', hv⟩ :=
    (updateInput_ignores_streaming sampleStreaming false).2 rfl rfl (by decide) (by decide)
  refine ⟨rfl, rfl, hf0, ⟨s', hs', ?_, ?_⟩, (updateInput_ignores_streaming sampleStreaming false).1⟩
  · rw [(hv 0 (by decide)).1]
    norm_num [sampleStreaming, bufferOf, toINTEGER16, toUNSIGNED16]
  · rw [(hv 0 (by decide)).2]
    norm_num [sampleStreaming, bufferOf, toINTEGER16, toUNSIGNED16]

/-- The cast `static_cast<INTEGER16>` always lands in the signed 16-bit range. -/
theorem toINTEGER16_range (u : Nat) : -32768 ≤ toINTEGER16 u ∧ toINTEGER16 u ≤ 32767 := by
  unfold toINTEGER16
  omega

/-- Two byte pairs that the integer stage of the decoding (store as `UNSIGNED16`, cast to
`INTEGER16`) sends to the same integer are the same pair. -/
theorem toINTEGER16_field_injective (hi lo hi' lo' : Nat) (h1 : hi < 256) (h2 : lo < 256)
    (h3 : hi' < 256) (h4 : lo' < 256)
    (h : toINTEGER16 (toUNSIGNED16 (hi * 256 + lo)) = toINTEGER16 (toUNSIGNED16 (hi' * 256 + lo'))) :
    hi = hi' ∧ lo = lo' := by
  unfold toINTEGER16 toUNSIGNED16 at h
  omega

end RobotousRFT
